import Mathlib

/-!
# Verification of the highlights derivation engine (`app.py`)

A shallow embedding of the highlights subsystem of the wrestling roster
application: the SQLite tables it reads (matches, match_participants,
tag_team_members, championships, championship_seasons) and the tables it
owns (highlight_types, wrestler_highlights, team_highlights,
highlight_runs) are modelled as Lean lists; every SQL statement of the
engine is translated statement by statement.

Modelling conventions:
* SQL `NULL` becomes `Option`; `lower(COALESCE(round,''))` is modelled by
  storing `round` as a plain `String` with `NULL` read as `""` (the
  column is only ever read through that coalesce).
* `ORDER BY id DESC LIMIT 1` becomes picking the element of maximal `id`;
  `ORDER BY id ASC` becomes an insertion sort on `id`.
* `highlight_runs.id` is `INTEGER PRIMARY KEY AUTOINCREMENT`, so ids are
  strictly increasing with insertion order; `ORDER BY id DESC LIMIT 1`
  over rows of one season is therefore the last inserted matching row.
* Python `set`s of wrestler ids become lists whose first-occurrence
  deduplication (`firstDedup`) gives set semantics; membership is what
  every consumer observes.
-/

namespace Wut

/-- One row of the `matches` table.  `round` is stored coalesced
(`NULL` ↦ `""`, exactly how every query reads it);
`winnerSide = none` models a `NULL winner_side`, i.e. a draw/no-contest
outcome. -/
structure MatchRow where
  id : Nat
  season : Nat
  tournament : String
  round : String
  winnerSide : Option Nat
  dayIndex : Option Int
  orderInDay : Option Int
deriving DecidableEq, Repr

/-- One row of `match_participants`. -/
structure Part where
  matchId : Nat
  side : Nat
  wrestlerId : Nat
deriving DecidableEq, Repr

/-- One row of `highlight_types` (`id INTEGER PRIMARY KEY`,
`code TEXT UNIQUE`, `label TEXT`). -/
structure HType where
  id : Int
  code : String
  label : String
deriving DecidableEq, Repr

/-- One row of `wrestler_highlights`
(PK `(wrestler_id, highlight_id, season)`). -/
structure WRow where
  wrestlerId : Nat
  highlightId : Int
  season : Nat
deriving DecidableEq, Repr

/-- One row of `team_highlights` (PK `(team_id, highlight_id, season)`). -/
structure TRow where
  teamId : Nat
  highlightId : Int
  season : Nat
deriving DecidableEq, Repr

/-- One row of `highlight_runs` (ids elided, see module comment). -/
structure RunRow where
  season : Option Nat
  lastDay : Int
  lastOrder : Int
  lastMatchId : Option Int
deriving DecidableEq, Repr

/-- One row of `championships`. -/
structure ChampRow where
  id : Nat
  name : String
deriving DecidableEq, Repr

/-- One row of `championship_seasons` (the columns the engine reads). -/
structure ChampSeasonRow where
  championshipId : Nat
  season : Nat
  championTeamId : Option Nat
deriving DecidableEq, Repr

/-- The database state: the read-only collaborator tables followed by the
four tables owned by the highlights engine.  `tagTeamMembers` rows are
`(team_id, wrestler_id)` pairs; `tagTeams` rows are `(id, name)`. -/
structure St where
  matchesT : List MatchRow
  participants : List Part
  tagTeams : List (Nat × String)
  tagTeamMembers : List (Nat × Nat)
  championships : List ChampRow
  championshipSeasons : List ChampSeasonRow
  highlightTypes : List HType
  wrestlerHighlights : List WRow
  teamHighlights : List TRow
  highlightRuns : List RunRow
deriving DecidableEq, Repr

/-! ## Small list utilities (set semantics, SQL ordering) -/

/-- First-occurrence deduplication: the key order a Python `dict` /
`set`-of-first-adds exposes. -/
def firstDedup (l : List Nat) : List Nat :=
  l.foldl (fun acc x => if x ∈ acc then acc else acc ++ [x]) []

/-- Insert into an ascending duplicate-free list of naturals. -/
def insNat (x : Nat) : List Nat → List Nat
  | [] => [x]
  | y :: ys => if x = y then y :: ys else if x < y then x :: y :: ys else y :: insNat x ys

/-- Sort ascending and deduplicate, mirroring Python `sorted(set(...))`. -/
def sortNat (l : List Nat) : List Nat :=
  l.foldl (fun acc x => insNat x acc) []

/-- Lexicographic comparison of character lists by code point: the
order Python's `sorted` and Lean's `<` both use on the ASCII label
strings of this schema (written out so the kernel can evaluate it). -/
def charsLt : List Char → List Char → Bool
  | _, [] => false
  | [], _ => true
  | a :: as, b :: bs =>
    a.toNat < b.toNat || (a.toNat == b.toNat && charsLt as bs)

/-- String comparison for `sorted(...)` over label strings. -/
def strLt (a b : String) : Bool :=
  charsLt a.data b.data

/-- Insert into an ascending duplicate-free list of strings. -/
def insStr (x : String) : List String → List String
  | [] => [x]
  | y :: ys => if x = y then y :: ys else if strLt x y then x :: y :: ys else y :: insStr x ys

/-- Sort ascending and deduplicate, mirroring Python `sorted(set(...))`
on label strings. -/
def sortDedupStr (l : List String) : List String :=
  l.foldl (fun acc x => insStr x acc) []

/-- Insert a match into a list kept ascending by `id`. -/
def insById (m : MatchRow) : List MatchRow → List MatchRow
  | [] => [m]
  | y :: ys => if m.id ≤ y.id then m :: y :: ys else y :: insById m ys

/-- `ORDER BY id ASC`. -/
def sortById (l : List MatchRow) : List MatchRow :=
  l.foldr (fun m acc => insById m acc) []

/-- `ORDER BY id DESC LIMIT 1`: the row of maximal `id`, if any. -/
def maxById (l : List MatchRow) : Option MatchRow :=
  l.foldl (fun acc m =>
    match acc with
    | none => some m
    | some a => if a.id < m.id then some m else some a) none

/-- Lower-case one ASCII character. -/
def lowChar (c : Char) : Char :=
  if 65 ≤ c.toNat ∧ c.toNat ≤ 90 then Char.ofNat (c.toNat + 32) else c

/-- SQL `lower(a) = lower(b)` (case-insensitive comparison of the ASCII
names stored in this schema), character by character so the kernel can
evaluate it. -/
def lowEq (a b : String) : Bool :=
  a.data.map lowChar == b.data.map lowChar

/-! ## Tournament and round name constants (exact spellings from the
source). -/

def ROUND_QF : String := "Quarter Final"
def ROUND_SF : String := "Semi Final"
def ROUND_F : String := "Final"

def T_WORLD_MEN : String := "Mens World Championship"
def T_WORLD_WOMEN : String := "Womens World Championship"
def T_TAG_WORLD : String := "Tag Team World Championship"
def T_NXT_MEN : String := "Mens NXT Championship"
def T_NXT_WOMEN : String := "Womens NXT Championship"
def T_UNDERGROUND_MEN : String := "Mens Underground Championship"
def T_UNDERGROUND_WOMEN : String := "Womens Underground Championship"
def T_HARDCORE_MEN : String := "Mens Hardcore Championship"
def T_HARDCORE_WOMEN : String := "Womens Hardcore Championship"
def T_US_MEN : String := "Mens US Championship"
def T_US_WOMEN : String := "Womens US Championship"
def T_RUMBLE_MEN : String := "Mens Royal Rumble"
def T_RUMBLE_WOMEN : String := "Womens Royal Rumble"
def T_ELIM_MEN : String := "Mens Elimination Chamber"
def T_ELIM_WOMEN : String := "Womens Elimination Chamber"
def T_ANDRE_MEN : String := "Mens Andre Battle Royal"
def T_CHYNA_WOMEN : String := "Womens Chyna Battle Royal"
def T_DUSTY_MEN : String := "Mens Dusty Rhodes Gauntlet"
def T_MAE_WOMEN : String := "Womens Mae Young Gauntlet"

/-! ## Match queries (`_final_match`, `_round_matches`, `_single_match`,
`_participants_by_side`, `_winners_and_losers`) -/

/-- `_final_match`: latest (max-id) match of the season/tournament with
round `Final`. -/
def finalMatch (ms : List MatchRow) (s : Nat) (T : String) : Option MatchRow :=
  maxById (ms.filter fun m =>
    m.season == s && lowEq m.tournament T && lowEq m.round ROUND_F)

/-- `_round_matches`: all matches of the season/tournament with the given
round, ordered by id ascending. -/
def roundMatches (ms : List MatchRow) (s : Nat) (T rnd : String) : List MatchRow :=
  sortById (ms.filter fun m =>
    m.season == s && lowEq m.tournament T && lowEq m.round rnd)

/-- `_single_match`: latest (max-id) match of the season/tournament, any
round (used for one-off tournaments). -/
def singleMatch (ms : List MatchRow) (s : Nat) (T : String) : Option MatchRow :=
  maxById (ms.filter fun m => m.season == s && lowEq m.tournament T)

/-- `_us_winners_for_season` row selection: matches of the tournament
whose round is empty/NULL. -/
def usMatches (ms : List MatchRow) (s : Nat) (T : String) : List MatchRow :=
  sortById (ms.filter fun m =>
    m.season == s && lowEq m.tournament T && lowEq m.round "")

/-- The members of one side of a match (`sides.get(side, set())`). -/
def sideMembers (ps : List Part) (mid side : Nat) : List Nat :=
  (ps.filter fun p => p.matchId == mid && p.side == side).map (·.wrestlerId)

/-- All participants of a match (`set().union(*sides.values())`). -/
def matchMembers (ps : List Part) (mid : Nat) : List Nat :=
  (ps.filter fun p => p.matchId == mid).map (·.wrestlerId)

/-- The side numbers of a match in first-appearance order (the key order
of the Python dict built by `_participants_by_side`). -/
def sideNums (ps : List Part) (mid : Nat) : List Nat :=
  firstDedup ((ps.filter fun p => p.matchId == mid).map (·.side))

/-- `_winners_and_losers`, winner component: empty when the row is absent
or `winner_side` is NULL, otherwise the winning side's members. -/
def winnersOf (ps : List Part) (m : Option MatchRow) : List Nat :=
  match m with
  | none => []
  | some mm =>
    match mm.winnerSide with
    | none => []
    | some ws => sideMembers ps mm.id ws

/-- `_winners_and_losers`, loser component: all participants minus the
winners (empty when the row is absent or `winner_side` is NULL). -/
def losersOf (ps : List Part) (m : Option MatchRow) : List Nat :=
  match m with
  | none => []
  | some mm =>
    match mm.winnerSide with
    | none => []
    | some ws =>
      (matchMembers ps mm.id).filter fun w => !(sideMembers ps mm.id ws).contains w

/-! ## Side resolver (`_side_to_team_id`)

The SQL groups `tag_team_members` rows by `team_id`; with the
`(team_id, wrestler_id)` primary-key index, SQLite emits groups in
ascending `team_id` order, so `LIMIT 1` (there is no `ORDER BY`) yields
the smallest matching team id. -/

/-- Member rows of one team (`SELECT COUNT(*) ... WHERE tm2.team_id = t`
counts these rows). -/
def teamRows (ttm : List (Nat × Nat)) (t : Nat) : List (Nat × Nat) :=
  ttm.filter fun r => r.1 == t

/-- The distinct member ids of one team. -/
def teamMembers (ttm : List (Nat × Nat)) (t : Nat) : List Nat :=
  firstDedup ((teamRows ttm t).map (·.2))

/-- The `HAVING` clause of `_side_to_team_id`:
`COUNT(DISTINCT tm.wrestler_id) = size AND (total member rows) = size`
where only rows with `wrestler_id IN` the side are grouped. -/
def teamMatchesSide (ttm : List (Nat × Nat)) (ws : List Nat) (t : Nat) : Bool :=
  (firstDedup (((teamRows ttm t).filter fun r => ws.contains r.2).map (·.2))).length
      == ws.length
    && (teamRows ttm t).length == ws.length

/-- `_side_to_team_id`: resolve a side's member set to a team id.
`wids` is a Python `set`, modelled by deduplicating first. -/
def sideToTeamId (ttm : List (Nat × Nat)) (wids : List Nat) : Option Nat :=
  let ws := firstDedup wids
  if ws.isEmpty then none
  else (sortNat (ttm.map (·.1))).find? fun t => teamMatchesSide ttm ws t

/-! ## Label spelling helpers (`_label_for_world`, `_label_for_nxt`,
`_label_for_final_only`, `_ONE_OFF_WINNER_LABEL`) -/

/-- `_label_for_world`. -/
def labelForWorld (T kind : String) : String :=
  if T = T_WORLD_MEN then
    if kind = "champ" then "Mens World Champion"
    else if kind = "runner" then "Mens World Championship Runner-up"
    else if kind = "sf" then "Mens World Championship Semi-Finalist"
    else if kind = "qf" then "Mens World Championship Quarter-Finalist"
    else "Mens World Championship"
  else if T = T_WORLD_WOMEN then
    if kind = "champ" then "Womens World Champion"
    else if kind = "runner" then "Womens World Championship Runner-up"
    else if kind = "sf" then "Womens World Championship Semi-Finalist"
    else if kind = "qf" then "Womens World Championship Quarter-Finalist"
    else "Womens World Championship"
  else if T = T_TAG_WORLD then
    if kind = "champ" then "Tag Team World Champion"
    else if kind = "runner" then "Tag Team World Championship Runner-up"
    else if kind = "sf" then "Tag Team World Championship Semi-Finalist"
    else if kind = "qf" then "Tag Team World Championship Quarter-Finalist"
    else "Tag Team World Championship"
  else
    if kind = "runner" then T ++ " Runner-up"
    else if kind = "sf" then T ++ " Semi-Finalist"
    else if kind = "qf" then T ++ " Quarter-Finalist"
    else T

/-- `_label_for_nxt`. -/
def labelForNxt (T kind : String) : String :=
  if T = T_NXT_MEN then
    if kind = "champ" then "Mens NXT Champion"
    else if kind = "runner" then "Mens NXT Championship Runner-up"
    else if kind = "sf" then "Mens NXT Championship Semi-Finalist"
    else "Mens NXT Championship"
  else if T = T_NXT_WOMEN then
    if kind = "champ" then "Womens NXT Champion"
    else if kind = "runner" then "Womens NXT Championship Runner-up"
    else if kind = "sf" then "Womens NXT Championship Semi-Finalist"
    else "Womens NXT Championship"
  else
    if kind = "runner" then T ++ " Runner-up"
    else if kind = "sf" then T ++ " Semi-Finalist"
    else T

/-- `_label_for_final_only` (Underground / Hardcore, champion vs
runner-up). -/
def labelForFinalOnly (T kind : String) : String :=
  if T = T_UNDERGROUND_MEN then
    if kind = "champ" then "Mens Underground Champion"
    else "Mens Underground Championship Runner-up"
  else if T = T_UNDERGROUND_WOMEN then
    if kind = "champ" then "Womens Underground Champion"
    else "Womens Underground Championship Runner-up"
  else if T = T_HARDCORE_MEN then
    if kind = "champ" then "Mens Hardcore Champion"
    else "Mens Hardcore Championship Runner-up"
  else if T = T_HARDCORE_WOMEN then
    if kind = "champ" then "Womens Hardcore Champion"
    else "Womens Hardcore Championship Runner-up"
  else T

/-- `_ONE_OFF_WINNER_LABEL`, in the dict's declaration (= iteration)
order. -/
def ONE_OFF_WINNER_LABELS : List (String × String) :=
  [(T_RUMBLE_MEN, "Mens Royal Rumble Winner"),
   (T_RUMBLE_WOMEN, "Womens Royal Rumble Winner"),
   (T_ELIM_MEN, "Mens Elimination Chamber Winner"),
   (T_ELIM_WOMEN, "Womens Elimination Chamber Winner"),
   (T_ANDRE_MEN, "Mens Andre Battle Royal Winner"),
   (T_CHYNA_WOMEN, "Womens Chyna Battle Royal Winner"),
   (T_DUSTY_MEN, "Mens Dusty Rhodes Gauntlet Winner"),
   (T_MAE_WOMEN, "Womens Mae Young Gauntlet Winner")]

/-! ## Per-tournament tier derivation (`dry_run_world_tag` inner loop)

`dry_run_world_tag` builds, per season and tournament, the champion /
runner-up / semi-finalist / quarter-finalist wrestler sets and adds the
corresponding label string for each.  The sets are transcribed below;
the per-wrestler label list then tests membership in each set.  A
wrestler-id list stands for the Python set it accumulates. -/

/-- Champions: winners of the latest `Final` match
(`W` in `dry_run_world_tag`). -/
def champions (ms : List MatchRow) (ps : List Part) (s : Nat) (T : String) : List Nat :=
  winnersOf ps (finalMatch ms s T)

/-- Runners-up: losers of the latest `Final` match
(`L` in `dry_run_world_tag`). -/
def runnersUp (ms : List MatchRow) (ps : List Part) (s : Nat) (T : String) : List Nat :=
  losersOf ps (finalMatch ms s T)

/-- `final_participants = set(W) | set(L)`: note this is empty when the
final exists but has `winner_side` NULL (`_winners_and_losers` returns
two empty sets then). -/
def finalParticipants (ms : List MatchRow) (ps : List Part) (s : Nat) (T : String) : List Nat :=
  champions ms ps s T ++ runnersUp ms ps s T

/-- Semi-finalists: losers of each `Semi Final` match who are not in
`final_participants`. -/
def semiFinalists (ms : List MatchRow) (ps : List Part) (s : Nat) (T : String) : List Nat :=
  (roundMatches ms s T ROUND_SF).foldr
    (fun sf acc =>
      ((losersOf ps (some sf)).filter fun w =>
        !(finalParticipants ms ps s T).contains w) ++ acc) []

/-- Everyone who appeared in any `Semi Final` match
(`sf_participants`). -/
def sfParticipants (ms : List MatchRow) (ps : List Part) (s : Nat) (T : String) : List Nat :=
  (roundMatches ms s T ROUND_SF).foldr
    (fun sf acc => matchMembers ps sf.id ++ acc) []

/-- `higher = final_participants | sf_participants`. -/
def higherTier (ms : List MatchRow) (ps : List Part) (s : Nat) (T : String) : List Nat :=
  finalParticipants ms ps s T ++ sfParticipants ms ps s T

/-- Quarter-finalists: losers of each `Quarter Final` match who are not
in `higher` (the code only runs this block for the two World
tournaments; the guard lives in `worldTagLabelsFor`). -/
def quarterFinalists (ms : List MatchRow) (ps : List Part) (s : Nat) (T : String) : List Nat :=
  (roundMatches ms s T ROUND_QF).foldr
    (fun qf acc =>
      ((losersOf ps (some qf)).filter fun w =>
        !(higherTier ms ps s T).contains w) ++ acc) []

/-- `[lab]` when `c` holds, else `[]`: one conditional
`labels_by_wrestler[wid].add(lab)`. -/
def tagIf (c : Prop) [Decidable c] (lab : String) : List String :=
  if c then [lab] else []

/-- The labels one iteration of the `dry_run_world_tag` tournament loop
gives wrestler `w` (quarter-finalist only for the two World
tournaments, mirroring `if T in (T_WORLD_MEN, T_WORLD_WOMEN)`). -/
def worldTagLabelsFor (ms : List MatchRow) (ps : List Part) (s : Nat) (T : String) (w : Nat) :
    List String :=
  tagIf (w ∈ champions ms ps s T) (labelForWorld T "champ")
    ++ tagIf (w ∈ runnersUp ms ps s T) (labelForWorld T "runner")
    ++ tagIf (w ∈ semiFinalists ms ps s T) (labelForWorld T "sf")
    ++ (if T = T_WORLD_MEN ∨ T = T_WORLD_WOMEN then
          tagIf (w ∈ quarterFinalists ms ps s T) (labelForWorld T "qf")
        else [])

/-- `dry_run_world_tag` for a single season, transposed to the label
list of one wrestler. -/
def dryRunWorldTagLabels (ms : List MatchRow) (ps : List Part) (s : Nat) (w : Nat) :
    List String :=
  worldTagLabelsFor ms ps s T_WORLD_MEN w
    ++ worldTagLabelsFor ms ps s T_WORLD_WOMEN w
    ++ worldTagLabelsFor ms ps s T_TAG_WORLD w

/-- The labels one iteration of the NXT loop of
`dry_run_all_except_us` gives wrestler `w`; the semi-finalist logic is
the same losers-not-finalists filter as `semiFinalists`. -/
def nxtLabelsFor (ms : List MatchRow) (ps : List Part) (s : Nat) (T : String) (w : Nat) :
    List String :=
  tagIf (w ∈ champions ms ps s T) (labelForNxt T "champ")
    ++ tagIf (w ∈ runnersUp ms ps s T) (labelForNxt T "runner")
    ++ tagIf (w ∈ semiFinalists ms ps s T) (labelForNxt T "sf")

/-- The labels one iteration of the Underground/Hardcore (finals only)
loop gives wrestler `w`. -/
def finalOnlyLabelsFor (ms : List MatchRow) (ps : List Part) (s : Nat) (T : String) (w : Nat) :
    List String :=
  tagIf (w ∈ champions ms ps s T) (labelForFinalOnly T "champ")
    ++ tagIf (w ∈ runnersUp ms ps s T) (labelForFinalOnly T "runner")

/-- One-off winners: the winners of `_single_match` (step 4 of
`dry_run_all_except_us`). -/
def oneOffWinners (ms : List MatchRow) (ps : List Part) (s : Nat) (T : String) : List Nat :=
  winnersOf ps (singleMatch ms s T)

/-- `_us_winners_for_season`: winners of every US title match (empty
round) of the season, unioned. -/
def usWinners (ms : List MatchRow) (ps : List Part) (s : Nat) (T : String) : List Nat :=
  (usMatches ms s T).foldr (fun m acc => winnersOf ps (some m) ++ acc) []

/-- `dry_run_all` for a single season, transposed to the label list of
one wrestler: World + Tag (via `dry_run_world_tag`), NXT, Underground /
Hardcore, the one-off tournaments, then the US titles added by
`dry_run_all` itself. -/
def dryRunAllLabels (ms : List MatchRow) (ps : List Part) (s : Nat) (w : Nat) : List String :=
  dryRunWorldTagLabels ms ps s w
    ++ nxtLabelsFor ms ps s T_NXT_MEN w
    ++ nxtLabelsFor ms ps s T_NXT_WOMEN w
    ++ finalOnlyLabelsFor ms ps s T_UNDERGROUND_MEN w
    ++ finalOnlyLabelsFor ms ps s T_UNDERGROUND_WOMEN w
    ++ finalOnlyLabelsFor ms ps s T_HARDCORE_MEN w
    ++ finalOnlyLabelsFor ms ps s T_HARDCORE_WOMEN w
    ++ (ONE_OFF_WINNER_LABELS.foldr
          (fun tl acc => tagIf (w ∈ oneOffWinners ms ps s tl.1) tl.2 ++ acc) [])
    ++ tagIf (w ∈ usWinners ms ps s T_US_MEN) "Mens US Championship Winner"
    ++ tagIf (w ∈ usWinners ms ps s T_US_WOMEN) "Womens US Championship Winner"

/-- The wrestler ids that can carry labels: every id occurring in
`match_participants` (all derived sets draw from participant rows). -/
def allWids (ps : List Part) : List Nat :=
  sortNat (ps.map (·.wrestlerId))

/-- The `{wrestler_id: sorted(list(set(labels)))}` result of
`dry_run_all` for one season, as an association list (keys ascending;
only wrestlers with at least one label, like the Python defaultdict). -/
def dryRunAllPairs (ms : List MatchRow) (ps : List Part) (s : Nat) :
    List (Nat × List String) :=
  (allWids ps).filterMap fun w =>
    let ls := sortDedupStr (dryRunAllLabels ms ps s w)
    if ls.isEmpty then none else some (w, ls)

/-! ## Label registry (`_label_id`)

`highlight_types` lookups are by `label`; a missing label is lazily
inserted with code `label.lower().replace(" ", "_")` under
`INSERT OR IGNORE` (the `code` column is UNIQUE, so a code collision
inserts nothing), then re-looked-up; `-1` signals failure.  A fresh
`INTEGER PRIMARY KEY` id is one more than the maximal existing id. -/

/-- `SELECT id FROM highlight_types WHERE label = ?` (first row). -/
def lookupLabel (ts : List HType) (L : String) : Option Int :=
  (ts.find? fun t => t.label == L).map (·.id)

/-- The registered codes (for the UNIQUE constraint on `code`). -/
def codesOf (ts : List HType) : List String :=
  ts.map (·.code)

/-- The rowid SQLite assigns to a fresh `highlight_types` row. -/
def newTypeId (ts : List HType) : Int :=
  (ts.foldl (fun a t => max a t.id) 0) + 1

/-- `label.lower().replace(" ", "_")`: on ASCII label text, lowering
then replacing spaces is the same as this single character map. -/
def mkCode (L : String) : String :=
  ⟨L.data.map fun c => if c = ' ' then '_' else lowChar c⟩

/-- `_label_id`: returns the updated `highlight_types` table and the id
(or `-1`). -/
def labelIdS (ts : List HType) (L : String) : List HType × Int :=
  match lookupLabel ts L with
  | some i => (ts, i)
  | none =>
    let c := mkCode L
    let ts1 := if c ∈ codesOf ts then ts else ts ++ [⟨newTypeId ts, c, L⟩]
    match lookupLabel ts1 L with
    | some i => (ts1, i)
    | none => (ts1, -1)

/-! ## Persisting wrestler rows -/

/-- `INSERT OR IGNORE` against the `(wrestler_id, highlight_id, season)`
primary key. -/
def insW (wh : List WRow) (r : WRow) : List WRow :=
  if r ∈ wh then wh else wh ++ [r]

/-- `INSERT OR IGNORE` against the `(team_id, highlight_id, season)`
primary key. -/
def insT (th : List TRow) (r : TRow) : List TRow :=
  if r ∈ th then th else th ++ [r]

/-- The flattened `(wid, label)` iteration of the persist loops
(`for wid, labels in results.items(): for label in labels:`). -/
def labelSeq (prs : List (Nat × List String)) : List (Nat × String) :=
  prs.foldr (fun p acc => (p.2.map fun l => (p.1, l)) ++ acc) []

/-- The wrestler insert loop of `admin_highlights_persist_all`: resolve
each label with `_label_id`, insert the row unless the id is `-1`. -/
def persistWLoop (ts : List HType) (wh : List WRow) (s : Nat) :
    List (Nat × String) → List HType × List WRow
  | [] => (ts, wh)
  | wl :: rest =>
    let r := labelIdS ts wl.2
    persistWLoop r.1 (if r.2 = -1 then wh else insW wh ⟨wl.1, r.2, s⟩) s rest

/-! ## Team recompute (`recompute_team_tag_highlights`) -/

/-- `finals_team_ids`: the resolvable team of every side of the final,
collected whatever the final's outcome. -/
def finalsTeamIdsOf (ps : List Part) (ttm : List (Nat × Nat)) (fm : MatchRow) : List Nat :=
  (sideNums ps fm.id).filterMap fun sd => sideToTeamId ttm (sideMembers ps fm.id sd)

/-- The champion insert for the final's winning side (when that side
resolves to a team). -/
def champInsert (ps : List Part) (ttm : List (Nat × Nat)) (fm : MatchRow) (wsd : Nat)
    (hidChamp : Int) (s : Nat) (th : List TRow) : List TRow :=
  match sideToTeamId ttm (sideMembers ps fm.id wsd) with
  | some tid => insT th ⟨tid, hidChamp, s⟩
  | none => th

/-- The runner-up inserts for every non-winning side of the final that
resolves to a team. -/
def runnerFold (ps : List Part) (ttm : List (Nat × Nat)) (fm : MatchRow) (wsd : Nat)
    (hidRunner : Int) (s : Nat) (th : List TRow) : List TRow :=
  (sideNums ps fm.id).foldl
    (fun acc sd =>
      if sd = wsd then acc
      else
        match sideToTeamId ttm (sideMembers ps fm.id sd) with
        | some tid => insT acc ⟨tid, hidRunner, s⟩
        | none => acc) th

/-- The champion/runner-up inserts from the Tag final (the
`if fin is not None` block): collects `finals_team_ids` for every side
of the final whatever the outcome, and inserts champion / runner-up
rows only when `winner_side` is declared. -/
def teamFinalsStep (ps : List Part) (ttm : List (Nat × Nat)) (fin : Option MatchRow)
    (hidChamp hidRunner : Int) (s : Nat) (th : List TRow) : List Nat × List TRow :=
  match fin with
  | none => ([], th)
  | some fm =>
    match fm.winnerSide with
    | none => (finalsTeamIdsOf ps ttm fm, th)
    | some wsd =>
      (finalsTeamIdsOf ps ttm fm,
       runnerFold ps ttm fm wsd hidRunner s (champInsert ps ttm fm wsd hidChamp s th))

/-- The semi-finalist inserts for the non-winning sides of one
semi-final: teams that did not reach the final. -/
def sfSideFold (ps : List Part) (ttm : List (Nat × Nat)) (sf : MatchRow) (wsd : Nat)
    (finalsTeamIds : List Nat) (hidSf : Int) (s : Nat) (th : List TRow) : List TRow :=
  (sideNums ps sf.id).foldl
    (fun acc sd =>
      if sd = wsd then acc
      else
        match sideToTeamId ttm (sideMembers ps sf.id sd) with
        | some tid =>
          if tid ∈ finalsTeamIds then acc else insT acc ⟨tid, hidSf, s⟩
        | none => acc) th

/-- The semi-final loop of `recompute_team_tag_highlights`: losing
sides' teams that did not reach the final get the semi-finalist row;
drawn semi-finals are skipped. -/
def teamSfStep (ms : List MatchRow) (ps : List Part) (ttm : List (Nat × Nat))
    (finalsTeamIds : List Nat) (hidSf : Int) (s : Nat) (th : List TRow) : List TRow :=
  (roundMatches ms s T_TAG_WORLD ROUND_SF).foldl
    (fun acc sf =>
      match sf.winnerSide with
      | none => acc
      | some wsd => sfSideFold ps ttm sf wsd finalsTeamIds hidSf s acc) th

/-- `recompute_team_tag_highlights`: resolve the three Tag labels,
delete the season's slice for those highlight ids, then insert the
champion / runner-up / semi-finalist team rows. -/
def recomputeTeamTag (ms : List MatchRow) (ps : List Part) (ttm : List (Nat × Nat))
    (ts : List HType) (th : List TRow) (s : Nat) : List HType × List TRow :=
  let r1 := labelIdS ts "Tag Team World Champion"
  let r2 := labelIdS r1.1 "Tag Team World Championship Runner-up"
  let r3 := labelIdS r2.1 "Tag Team World Championship Semi-Finalist"
  let th0 := th.filter fun r =>
    !(r.season == s && (r.highlightId == r1.2 || r.highlightId == r2.2 || r.highlightId == r3.2))
  let fstep := teamFinalsStep ps ttm (finalMatch ms s T_TAG_WORLD) r1.2 r2.2 s th0
  (r3.1, teamSfStep ms ps ttm fstep.1 r3.2 s fstep.2)

/-! ## Watermark (`_record_highlight_run`, the incremental check) -/

/-- SQL `MAX` over a column: `NULL` on an empty set of values. -/
def sqlMax (l : List Int) : Option Int :=
  match l with
  | [] => none
  | x :: xs => some (xs.foldl max x)

/-- `COALESCE(MAX(day_index), -1)` over the season's matches. -/
def curDay (ms : List MatchRow) (s : Nat) : Int :=
  (sqlMax ((ms.filter fun m => m.season == s).filterMap (·.dayIndex))).getD (-1)

/-- `COALESCE(MAX(order_in_day), -1)` over the season's matches. -/
def curOrder (ms : List MatchRow) (s : Nat) : Int :=
  (sqlMax ((ms.filter fun m => m.season == s).filterMap (·.orderInDay))).getD (-1)

/-- `MAX(id)` over the season's matches (`NULL` when the season has no
matches). -/
def curMatchId (ms : List MatchRow) (s : Nat) : Option Int :=
  sqlMax ((ms.filter fun m => m.season == s).map fun m => (m.id : Int))

/-- `_record_highlight_run`: append a watermark row with the season's
current maxima. -/
def recordHighlightRun (ms : List MatchRow) (runs : List RunRow) (s : Nat) : List RunRow :=
  runs ++ [⟨some s, curDay ms s, curOrder ms s, curMatchId ms s⟩]

/-- The latest stored watermark row for a season
(`WHERE season = ? ORDER BY id DESC LIMIT 1`; ids increase with
insertion, see module comment). -/
def latestRun (runs : List RunRow) (s : Nat) : Option RunRow :=
  (runs.filter fun r => r.season == some s).getLast?

/-- Python `int(x or -1)` on a nullable column: `None` and `0` both
give `-1`. -/
def pyOrNeg (x : Option Int) : Int :=
  match x with
  | none => -1
  | some v => if v = 0 then -1 else v

/-! ## The persist endpoints -/

/-- The shared recompute body of `admin_highlights_persist_all` (and,
after its watermark check, `admin_highlights_persist_incremental`):
derive the season with `dry_run_all`, delete the season's
`wrestler_highlights` slice, insert the derived wrestler rows, run
`recompute_team_tag_highlights`, and append the watermark row.  The
endpoints' inserted-row counters only feed the redirect URL and are not
modelled. -/
def persistAllCore (st : St) (s : Nat) : St :=
  let prs := dryRunAllPairs st.matchesT st.participants s
  let wh0 := st.wrestlerHighlights.filter fun r => !(r.season == s)
  let step1 := persistWLoop st.highlightTypes wh0 s (labelSeq prs)
  let step2 := recomputeTeamTag st.matchesT st.participants st.tagTeamMembers
    step1.1 st.teamHighlights s
  { st with
    highlightTypes := step2.1
    wrestlerHighlights := step1.2
    teamHighlights := step2.2
    highlightRuns := recordHighlightRun st.matchesT st.highlightRuns s }

/-- `admin_highlights_persist_all`. -/
def persistAll (st : St) (s : Nat) : St :=
  persistAllCore st s

/-- `admin_highlights_persist_incremental`: compare the stored
watermark with the season's current maxima; on a match return the
state untouched with the no-op flag `true`, otherwise recompute. -/
def persistIncremental (st : St) (s : Nat) : St × Bool :=
  match latestRun st.highlightRuns s with
  | some wm =>
    if wm.lastDay = curDay st.matchesT s ∧ wm.lastOrder = curOrder st.matchesT s ∧
        pyOrNeg wm.lastMatchId = pyOrNeg (curMatchId st.matchesT s) then
      (st, true)
    else (persistAllCore st s, false)
  | none => (persistAllCore st s, false)

/-! ## Query operations (`team_highlights_db`, `get_team_highlights`) -/

/-- `JOIN highlight_types ht ON ht.id = th.highlight_id` (ids are a
primary key; first row). -/
def lookupTypeById (ts : List HType) (i : Int) : Option HType :=
  ts.find? fun t => t.id == i

/-- `f"{count} x {label} ({s_repr})"` with
`s_repr = "Season n"` or `"Seasons a, b, ..."`. -/
def fmtLine (count : Nat) (label : String) (seasons : List Nat) : String :=
  let sRepr :=
    if count = 1 then "Season " ++ toString (seasons.headD 0)
    else "Seasons " ++ String.intercalate ", " (seasons.map toString)
  toString count ++ " x " ++ label ++ " (" ++ sRepr ++ ")"

/-- Sort output lines (`sorted(out)`). -/
def sortStr (l : List String) : List String :=
  l.foldl (fun acc x => insStr x acc) []

/-- `team_highlights_db(tid, season)`: read the stored team rows
(optionally season-filtered), group by label, and render
`"{count} x {label} ({seasons})"` lines, sorted.  (The SQL's
`ORDER BY season` only affects intermediate order; each group's seasons
are re-sorted by `sorted(set(...))` and the lines by `sorted(out)`.) -/
def teamHighlightsDb (st : St) (tid : Nat) (season : Option Nat) : List String :=
  let rows := (st.teamHighlights.filter fun r =>
      r.teamId == tid && (match season with | none => true | some s => r.season == s)
    ).filterMap fun r =>
      (lookupTypeById st.highlightTypes r.highlightId).map fun t => (t.label, r.season)
  let labels := rows.map (·.1) |>.foldl (fun acc x => if x ∈ acc then acc else acc ++ [x]) []
  sortStr (labels.map fun l =>
    let uniq := sortNat ((rows.filter fun p => p.1 == l).map (·.2))
    fmtLine uniq.length l uniq)

/-- `get_team_highlights(conn, tid, season)`: champions recorded via
`championship_seasons.champion_team_id` joined to `championships`,
rendered as `"1 x {name} Champion (Season {season})"` (the
column-presence `PRAGMA` check is modelled as the column existing). -/
def getTeamHighlights (st : St) (tid : Nat) (season : Nat) : List String :=
  ((st.championshipSeasons.filter fun cs =>
      cs.season == season && cs.championTeamId == some tid
    ).filterMap fun cs =>
      (st.championships.find? fun c => c.id == cs.championshipId).map (·.name)
  ).map fun name => "1 x " ++ name ++ " Champion (Season " ++ toString season ++ ")"

/-! ## Phase split of the wrestler persist loop (proof infrastructure)

`persistWLoop` interleaves `_label_id` resolution (which reads and
writes only `highlight_types`) with row inserts (which read and write
only `wrestler_highlights`); the two phases commute, which the lemma
`persistWLoop_eq_phases` below makes precise. -/

/-- The `highlight_types` table after resolving a `(wid, label)`
sequence. -/
def typesAfter (ts : List HType) : List (Nat × String) → List HType
  | [] => ts
  | wl :: rest => typesAfter (labelIdS ts wl.2).1 rest

/-- The `(wid, highlight-id)` pairs the loop resolves, in order. -/
def resolveIds (ts : List HType) : List (Nat × String) → List (Nat × Int)
  | [] => []
  | wl :: rest => (wl.1, (labelIdS ts wl.2).2) :: resolveIds (labelIdS ts wl.2).1 rest

/-- Replay the row inserts of the loop from resolved pairs. -/
def applyRows (wh : List WRow) (s : Nat) : List (Nat × Int) → List WRow
  | [] => wh
  | p :: rest => applyRows (if p.2 = -1 then wh else insW wh ⟨p.1, p.2, s⟩) s rest

/-! # Basic lemmas about the list utilities -/

theorem mem_firstDedup_aux (l acc : List Nat) (x : Nat) :
    x ∈ l.foldl (fun acc x => if x ∈ acc then acc else acc ++ [x]) acc ↔ x ∈ acc ∨ x ∈ l := by
  induction l generalizing acc with
  | nil => simp
  | cons y ys ih =>
    simp only [List.foldl_cons, ih, List.mem_cons]
    by_cases h : y ∈ acc
    · simp only [if_pos h]
      constructor
      · rintro (hx | hx)
        · exact Or.inl hx
        · exact Or.inr (Or.inr hx)
      · rintro (hx | hx | hx)
        · exact Or.inl hx
        · exact Or.inl (hx ▸ h)
        · exact Or.inr hx
    · simp only [if_neg h, List.mem_append, List.mem_singleton]
      tauto

theorem mem_firstDedup (l : List Nat) (x : Nat) : x ∈ firstDedup l ↔ x ∈ l := by
  simp [firstDedup, mem_firstDedup_aux]

theorem nodup_firstDedup_aux (l acc : List Nat) (h : acc.Nodup) :
    (l.foldl (fun acc x => if x ∈ acc then acc else acc ++ [x]) acc).Nodup := by
  induction l generalizing acc with
  | nil => simpa
  | cons y ys ih =>
    simp only [List.foldl_cons]
    by_cases hy : y ∈ acc
    · simpa [if_pos hy] using ih acc h
    · refine ih _ ?_
      simp only [if_neg hy]
      exact List.Nodup.append h (List.nodup_singleton y) (by simpa using hy)

theorem nodup_firstDedup (l : List Nat) : (firstDedup l).Nodup :=
  nodup_firstDedup_aux l [] List.nodup_nil

theorem firstDedup_aux_eq_of_nodup (l acc : List Nat) (h : (acc ++ l).Nodup) :
    l.foldl (fun acc x => if x ∈ acc then acc else acc ++ [x]) acc = acc ++ l := by
  induction l generalizing acc with
  | nil => simp
  | cons y ys ih =>
    have hy : y ∉ acc := by
      intro hmem
      have := List.disjoint_of_nodup_append h
      exact this hmem (by simp)
    simp only [List.foldl_cons, if_neg hy]
    have : (acc ++ [y]) ++ ys = acc ++ y :: ys := by simp
    rw [ih (acc ++ [y]) (by simpa [this] using h), this]

theorem firstDedup_eq_of_nodup (l : List Nat) (h : l.Nodup) : firstDedup l = l := by
  simpa [firstDedup] using firstDedup_aux_eq_of_nodup l [] (by simpa using h)

theorem firstDedup_ne_nil (l : List Nat) (h : l ≠ []) : firstDedup l ≠ [] := by
  obtain ⟨x, hx⟩ := List.exists_mem_of_ne_nil l h
  intro hcon
  have := (mem_firstDedup l x).mpr hx
  simp [hcon] at this

theorem toFinset_firstDedup (l : List Nat) : (firstDedup l).toFinset = l.toFinset := by
  ext x
  simp [mem_firstDedup]

theorem mem_insNat (x y : Nat) (l : List Nat) : y ∈ insNat x l ↔ y = x ∨ y ∈ l := by
  induction l with
  | nil => simp [insNat]
  | cons z zs ih =>
    simp only [insNat]
    by_cases h1 : x = z
    · subst h1
      by_cases h2 : y = x <;> simp [h2]
    · rw [if_neg h1]
      by_cases h3 : x < z
      · simp [if_pos h3, List.mem_cons]
      · simp only [if_neg h3, List.mem_cons, ih]
        tauto

theorem mem_sortNat (l : List Nat) (y : Nat) : y ∈ sortNat l ↔ y ∈ l := by
  suffices h : ∀ acc, y ∈ l.foldl (fun acc x => insNat x acc) acc ↔ y ∈ acc ∨ y ∈ l by
    simpa [sortNat] using h []
  induction l with
  | nil => simp
  | cons z zs ih =>
    intro acc
    simp only [List.foldl_cons, ih, mem_insNat, List.mem_cons]
    tauto

theorem mem_tagIf (c : Prop) [Decidable c] (a lab : String) :
    a ∈ tagIf c lab ↔ c ∧ a = lab := by
  by_cases h : c <;> simp [tagIf, h]

theorem mem_foldrAppend {α β : Type} (g : α → List β) (l : List α) (x : β) :
    x ∈ l.foldr (fun a acc => g a ++ acc) [] ↔ ∃ a ∈ l, x ∈ g a := by
  induction l with
  | nil => simp
  | cons y ys ih => simp [ih]

/-! # Side resolver: characterisation of `_side_to_team_id`

The roster primary key `(team_id, wrestler_id)` makes `tagTeamMembers`
duplicate-free; under that invariant `teamMatchesSide` holds exactly
when the team's member set equals the side's member set. -/

theorem map_snd_filter (l : List (Nat × Nat)) (q : Nat → Bool) :
    ((l.filter fun r => q r.2).map fun r => r.2) = (l.map fun r => r.2).filter q := by
  induction l with
  | nil => rfl
  | cons x xs ih => by_cases h : q x.2 <;> simp [List.filter_cons, h, ih]

theorem teamRows_fst (ttm : List (Nat × Nat)) (t : Nat) (r : Nat × Nat)
    (hr : r ∈ teamRows ttm t) : r.1 = t := by
  have := (List.mem_filter.mp hr).2
  simpa using this

theorem nodup_map_snd_of_fst_const (l : List (Nat × Nat)) (t : Nat)
    (hl : l.Nodup) (hfst : ∀ r ∈ l, r.1 = t) : (l.map fun r => r.2).Nodup := by
  refine List.Nodup.map_on ?_ hl
  intro x hx y hy hxy
  have hx1 := hfst x hx
  have hy1 := hfst y hy
  exact Prod.ext (hx1.trans hy1.symm) hxy

theorem teamMembers_eq (ttm : List (Nat × Nat)) (t : Nat) (h : ttm.Nodup) :
    teamMembers ttm t = (teamRows ttm t).map fun r => r.2 := by
  have hrows : (teamRows ttm t).Nodup := List.Nodup.filter _ h
  exact firstDedup_eq_of_nodup _
    (nodup_map_snd_of_fst_const _ t hrows (teamRows_fst ttm t))

theorem teamMatchesSide_iff (ttm : List (Nat × Nat)) (ws : List Nat) (t : Nat)
    (h : ttm.Nodup) (hws : ws.Nodup) :
    teamMatchesSide ttm ws t = true ↔
      (teamMembers ttm t).toFinset = ws.toFinset := by
  have hrows : (teamRows ttm t).Nodup := List.Nodup.filter _ h
  have hMnd : ((teamRows ttm t).map fun r => r.2).Nodup :=
    nodup_map_snd_of_fst_const _ t hrows (teamRows_fst ttm t)
  set M := (teamRows ttm t).map fun r => r.2 with hM
  have hmem : teamMembers ttm t = M := teamMembers_eq ttm t h
  have hfsub : (teamRows ttm t).filter (fun r => ws.contains r.2) ⊆ teamRows ttm t :=
    (List.filter_sublist _).subset
  have hfnd : (((teamRows ttm t).filter fun r => ws.contains r.2).map fun r => r.2).Nodup := by
    refine nodup_map_snd_of_fst_const _ t (List.Nodup.filter _ hrows) ?_
    intro r hr
    exact teamRows_fst ttm t r (hfsub hr)
  have hcomm : (((teamRows ttm t).filter fun r => ws.contains r.2).map fun r => r.2)
      = M.filter fun x => ws.contains x := map_snd_filter _ _
  have hrowlen : (teamRows ttm t).length = M.length := (List.length_map _ _).symm
  constructor
  · intro hcond
    simp only [teamMatchesSide, Bool.and_eq_true, beq_iff_eq] at hcond
    obtain ⟨h1, h2⟩ := hcond
    rw [firstDedup_eq_of_nodup _ hfnd, hcomm] at h1
    rw [hrowlen] at h2
    set F := M.filter fun x => ws.contains x with hF
    have hFnd : F.Nodup := List.Nodup.filter _ hMnd
    have hFsubws : F.toFinset ⊆ ws.toFinset := by
      intro x hx
      simp only [List.mem_toFinset] at hx ⊢
      have := (List.mem_filter.mp hx).2
      simpa using this
    have hFcard : F.toFinset.card = ws.toFinset.card := by
      rw [List.toFinset_card_of_nodup hFnd, List.toFinset_card_of_nodup hws, h1]
    have hFeq : F.toFinset = ws.toFinset :=
      Finset.eq_of_subset_of_card_le hFsubws (le_of_eq hFcard.symm)
    have hwsM : ws.toFinset ⊆ M.toFinset := by
      intro x hx
      rw [← hFeq] at hx
      simp only [List.mem_toFinset] at hx ⊢
      exact (List.mem_filter.mp hx).1
    have hcard2 : M.toFinset.card = ws.toFinset.card := by
      rw [List.toFinset_card_of_nodup hMnd, List.toFinset_card_of_nodup hws, h2]
    rw [hmem]
    exact (Finset.eq_of_subset_of_card_le hwsM (le_of_eq hcard2)).symm
  · intro heq
    rw [hmem] at heq
    have hall : ∀ x ∈ M, ws.contains x = true := by
      intro x hx
      have : x ∈ ws.toFinset := heq ▸ List.mem_toFinset.mpr hx
      simpa using List.mem_toFinset.mp this
    have hlen : M.length = ws.length := by
      rw [← List.toFinset_card_of_nodup hMnd, ← List.toFinset_card_of_nodup hws, heq]
    simp only [teamMatchesSide, Bool.and_eq_true, beq_iff_eq]
    constructor
    · rw [firstDedup_eq_of_nodup _ hfnd, hcomm, List.filter_eq_self.mpr hall, hlen]
    · rw [hrowlen, hlen]

theorem sideToTeamId_some_spec (ttm : List (Nat × Nat)) (wids : List Nat) (t : Nat)
    (h : ttm.Nodup) (ht : sideToTeamId ttm wids = some t) :
    t ∈ ttm.map (·.1) ∧ (teamMembers ttm t).toFinset = wids.toFinset := by
  unfold sideToTeamId at ht
  by_cases he : (firstDedup wids).isEmpty
  · simp [he] at ht
  · simp only [he, if_neg] at ht
    rw [if_neg (by simp [he])] at ht
    have hmem := List.mem_of_find?_eq_some ht
    have hpred := List.find?_some ht
    refine ⟨(mem_sortNat _ t).mp hmem, ?_⟩
    have := (teamMatchesSide_iff ttm (firstDedup wids) t h (nodup_firstDedup wids)).mp hpred
    rwa [toFinset_firstDedup] at this

theorem sideToTeamId_isSome_iff (ttm : List (Nat × Nat)) (wids : List Nat)
    (h : ttm.Nodup) (hne : wids ≠ []) :
    (sideToTeamId ttm wids).isSome = true ↔
      ∃ t ∈ ttm.map (·.1), (teamMembers ttm t).toFinset = wids.toFinset := by
  have hwe : ¬(firstDedup wids).isEmpty := by
    simpa [List.isEmpty_iff] using firstDedup_ne_nil wids hne
  constructor
  · intro hs
    obtain ⟨t, ht⟩ := Option.isSome_iff_exists.mp hs
    obtain ⟨h1, h2⟩ := sideToTeamId_some_spec ttm wids t h ht
    exact ⟨t, h1, h2⟩
  · rintro ⟨t, htm, heq⟩
    unfold sideToTeamId
    rw [if_neg hwe]
    rw [List.find?_isSome]
    refine ⟨t, (mem_sortNat _ t).mpr htm, ?_⟩
    rw [teamMatchesSide_iff ttm (firstDedup wids) t h (nodup_firstDedup wids),
      toFinset_firstDedup]
    exact heq

/-- C4, counterexample to the claim as stated: `_side_to_team_id`'s
`HAVING` clause compares both counts against the side's size, not
against 2, so a registered team with three members is resolved for a
three-member side — the claim's "a team with fewer or more than two
members is never resolved as a side" fails, and resolution happens with
no two-member team in the roster at all. -/
theorem c4_counterexample :
    sideToTeamId [(7, 1), (7, 2), (7, 3)] [1, 2, 3] = some 7 ∧
    (teamMembers [(7, 1), (7, 2), (7, 3)] 7).length = 3 ∧
    (∀ t ∈ ([(7, 1), (7, 2), (7, 3)] : List (Nat × Nat)).map (·.1),
      (teamMembers [(7, 1), (7, 2), (7, 3)] t).length ≠ 2) := by
  refine ⟨by decide, by decide, ?_⟩
  decide

/-- C4 (amended): under the roster primary-key invariant
(`tag_team_members` rows are distinct) and a non-empty side, the side
resolver returns a team exactly when some registered team's member set
equals the side's member set — with "exactly two members" relaxed to
"exactly as many members as the side"; any resolved team's member set
equals the side's set (so a side sharing only one member with a team
never resolves to it) and has exactly the side's number of members. -/
theorem c4_side_resolution_exact (ttm : List (Nat × Nat)) (wids : List Nat)
    (h : ttm.Nodup) (hne : wids ≠ []) :
    ((sideToTeamId ttm wids).isSome = true ↔
      ∃ t ∈ ttm.map (·.1), (teamMembers ttm t).toFinset = wids.toFinset)
    ∧ ∀ t, sideToTeamId ttm wids = some t →
        (teamMembers ttm t).toFinset = wids.toFinset ∧
        (teamMembers ttm t).length = (firstDedup wids).length := by
  refine ⟨sideToTeamId_isSome_iff ttm wids h hne, ?_⟩
  intro t ht
  obtain ⟨-, heq⟩ := sideToTeamId_some_spec ttm wids t h ht
  refine ⟨heq, ?_⟩
  have hnd : (teamMembers ttm t).Nodup := by
    rw [teamMembers]
    exact nodup_firstDedup _
  calc (teamMembers ttm t).length
      = (teamMembers ttm t).toFinset.card := (List.toFinset_card_of_nodup hnd).symm
    _ = (firstDedup wids).toFinset.card := by rw [heq, toFinset_firstDedup]
    _ = (firstDedup wids).length := List.toFinset_card_of_nodup (nodup_firstDedup wids)

/-- Witness for C4 (amended) at a concrete roster: team 3 = {1, 2},
side {1, 2}. -/
theorem c4_witness :
    ([(3, 1), (3, 2)] : List (Nat × Nat)).Nodup ∧
    ((((sideToTeamId [(3, 1), (3, 2)] [1, 2]).isSome = true ↔
        ∃ t ∈ ([(3, 1), (3, 2)] : List (Nat × Nat)).map (·.1),
          (teamMembers [(3, 1), (3, 2)] t).toFinset = ([1, 2] : List Nat).toFinset))
      ∧ ∀ t, sideToTeamId [(3, 1), (3, 2)] [1, 2] = some t →
          (teamMembers [(3, 1), (3, 2)] t).toFinset = ([1, 2] : List Nat).toFinset ∧
          (teamMembers [(3, 1), (3, 2)] t).length = (firstDedup [1, 2]).length) :=
  ⟨by decide, c4_side_resolution_exact [(3, 1), (3, 2)] [1, 2] (by decide) (by decide)⟩

/-- C5, counterexample to the claim as stated: with two distinct
registered teams (3 and 5) holding exactly the side's member set
{1, 2}, `_side_to_team_id`'s un-ordered `GROUP BY ... LIMIT 1` picks a
matching team (the first group, team 3) instead of resolving to no
team. -/
theorem c5_counterexample :
    sideToTeamId [(3, 1), (3, 2), (5, 1), (5, 2)] [1, 2] = some 3 ∧
    teamMembers [(3, 1), (3, 2), (5, 1), (5, 2)] 3 = [1, 2] ∧
    teamMembers [(3, 1), (3, 2), (5, 1), (5, 2)] 5 = [1, 2] := by
  refine ⟨by decide, by decide, by decide⟩

/-- C5 (amended): when a side's member set exactly matches more than
one registered team, resolution still returns one of the matching
teams (it does not fall back to individuals); the returned team's
member set equals the side's member set. -/
theorem c5_ambiguous_resolution (ttm : List (Nat × Nat)) (wids : List Nat)
    (t1 t2 : Nat) (h : ttm.Nodup) (hne : wids ≠ [])
    (h1 : t1 ∈ ttm.map (·.1)) (_h2 : t2 ∈ ttm.map (·.1)) (_h12 : t1 ≠ t2)
    (e1 : (teamMembers ttm t1).toFinset = wids.toFinset)
    (_e2 : (teamMembers ttm t2).toFinset = wids.toFinset) :
    ∃ t, sideToTeamId ttm wids = some t ∧
      (teamMembers ttm t).toFinset = wids.toFinset := by
  have hs : (sideToTeamId ttm wids).isSome = true :=
    (sideToTeamId_isSome_iff ttm wids h hne).mpr ⟨t1, h1, e1⟩
  obtain ⟨t, ht⟩ := Option.isSome_iff_exists.mp hs
  exact ⟨t, ht, (sideToTeamId_some_spec ttm wids t h ht).2⟩

/-- Witness for C5 (amended) at the ambiguous roster of the
counterexample. -/
theorem c5_witness :
    (3 : Nat) ≠ 5 ∧
    ∃ t, sideToTeamId [(3, 1), (3, 2), (5, 1), (5, 2)] [1, 2] = some t ∧
      (teamMembers [(3, 1), (3, 2), (5, 1), (5, 2)] t).toFinset
        = ([1, 2] : List Nat).toFinset :=
  ⟨by decide,
   c5_ambiguous_resolution [(3, 1), (3, 2), (5, 1), (5, 2)] [1, 2] 3 5
     (by decide) (by decide) (by decide) (by decide) (by decide)
     (by decide) (by decide)⟩

/-! # Tier-level facts about the bracketed derivation -/

theorem losersOf_subset_members (ps : List Part) (m : MatchRow) (w : Nat)
    (h : w ∈ losersOf ps (some m)) : w ∈ matchMembers ps m.id := by
  cases hw : m.winnerSide with
  | none => simp [losersOf, hw] at h
  | some ws =>
    simp only [losersOf, hw] at h
    exact (List.mem_filter.mp h).1

theorem mem_semiFinalists_iff (ms : List MatchRow) (ps : List Part) (s : Nat) (T : String)
    (w : Nat) :
    w ∈ semiFinalists ms ps s T ↔
      ∃ sf ∈ roundMatches ms s T ROUND_SF,
        w ∈ losersOf ps (some sf) ∧ w ∉ finalParticipants ms ps s T := by
  simp [semiFinalists, mem_foldrAppend, List.mem_filter]

theorem mem_sfParticipants_iff (ms : List MatchRow) (ps : List Part) (s : Nat) (T : String)
    (w : Nat) :
    w ∈ sfParticipants ms ps s T ↔
      ∃ sf ∈ roundMatches ms s T ROUND_SF, w ∈ matchMembers ps sf.id := by
  simp [sfParticipants, mem_foldrAppend]

theorem mem_quarterFinalists_iff (ms : List MatchRow) (ps : List Part) (s : Nat) (T : String)
    (w : Nat) :
    w ∈ quarterFinalists ms ps s T ↔
      ∃ qf ∈ roundMatches ms s T ROUND_QF,
        w ∈ losersOf ps (some qf) ∧ w ∉ higherTier ms ps s T := by
  simp [quarterFinalists, mem_foldrAppend, List.mem_filter]

/-- A finals participant (champion or runner-up) is filtered out of the
semi-finalist tier. -/
theorem finalParticipant_not_semi (ms : List MatchRow) (ps : List Part) (s : Nat)
    (T : String) (w : Nat) (hw : w ∈ finalParticipants ms ps s T) :
    w ∉ semiFinalists ms ps s T := by
  rw [mem_semiFinalists_iff]
  rintro ⟨sf, -, -, hnot⟩
  exact hnot hw

/-- A finals participant is filtered out of the quarter-finalist tier
(it sits inside `higher`). -/
theorem finalParticipant_not_quarter (ms : List MatchRow) (ps : List Part) (s : Nat)
    (T : String) (w : Nat) (hw : w ∈ finalParticipants ms ps s T) :
    w ∉ quarterFinalists ms ps s T := by
  rw [mem_quarterFinalists_iff]
  rintro ⟨qf, -, -, hnot⟩
  refine hnot ?_
  unfold higherTier
  exact List.mem_append.mpr (Or.inl hw)

/-- A semi-finalist appeared in a semi-final match, hence sits inside
`higher` and is filtered out of the quarter-finalist tier. -/
theorem semi_not_quarter (ms : List MatchRow) (ps : List Part) (s : Nat)
    (T : String) (w : Nat) (hw : w ∈ semiFinalists ms ps s T) :
    w ∉ quarterFinalists ms ps s T := by
  rw [mem_semiFinalists_iff] at hw
  obtain ⟨sf, hsfm, hl, -⟩ := hw
  have hm : w ∈ matchMembers ps sf.id := losersOf_subset_members ps sf w hl
  have hsp : w ∈ sfParticipants ms ps s T := (mem_sfParticipants_iff ms ps s T w).mpr ⟨sf, hsfm, hm⟩
  rw [mem_quarterFinalists_iff]
  rintro ⟨qf, -, -, hnot⟩
  refine hnot ?_
  unfold higherTier
  exact List.mem_append.mpr (Or.inr hsp)

/-! Membership of each producible `dry_run_world_tag` label string,
characterised by the corresponding tier set (the label spellings of the
three tournaments are pairwise distinct, so each string pins down its
tier). -/

theorem mem_drwt_champ_M (ms : List MatchRow) (ps : List Part) (s w : Nat) :
    labelForWorld T_WORLD_MEN "champ" ∈ dryRunWorldTagLabels ms ps s w ↔
      w ∈ champions ms ps s T_WORLD_MEN := by
  simp [dryRunWorldTagLabels, worldTagLabelsFor, mem_tagIf, labelForWorld,
    T_WORLD_MEN, T_WORLD_WOMEN, T_TAG_WORLD]

theorem mem_drwt_runner_M (ms : List MatchRow) (ps : List Part) (s w : Nat) :
    labelForWorld T_WORLD_MEN "runner" ∈ dryRunWorldTagLabels ms ps s w ↔
      w ∈ runnersUp ms ps s T_WORLD_MEN := by
  simp [dryRunWorldTagLabels, worldTagLabelsFor, mem_tagIf, labelForWorld,
    T_WORLD_MEN, T_WORLD_WOMEN, T_TAG_WORLD]

theorem mem_drwt_sf_M (ms : List MatchRow) (ps : List Part) (s w : Nat) :
    labelForWorld T_WORLD_MEN "sf" ∈ dryRunWorldTagLabels ms ps s w ↔
      w ∈ semiFinalists ms ps s T_WORLD_MEN := by
  simp [dryRunWorldTagLabels, worldTagLabelsFor, mem_tagIf, labelForWorld,
    T_WORLD_MEN, T_WORLD_WOMEN, T_TAG_WORLD]

theorem mem_drwt_qf_M (ms : List MatchRow) (ps : List Part) (s w : Nat) :
    labelForWorld T_WORLD_MEN "qf" ∈ dryRunWorldTagLabels ms ps s w ↔
      w ∈ quarterFinalists ms ps s T_WORLD_MEN := by
  simp [dryRunWorldTagLabels, worldTagLabelsFor, mem_tagIf, labelForWorld,
    T_WORLD_MEN, T_WORLD_WOMEN, T_TAG_WORLD]

theorem mem_drwt_champ_W (ms : List MatchRow) (ps : List Part) (s w : Nat) :
    labelForWorld T_WORLD_WOMEN "champ" ∈ dryRunWorldTagLabels ms ps s w ↔
      w ∈ champions ms ps s T_WORLD_WOMEN := by
  simp [dryRunWorldTagLabels, worldTagLabelsFor, mem_tagIf, labelForWorld,
    T_WORLD_MEN, T_WORLD_WOMEN, T_TAG_WORLD]

theorem mem_drwt_runner_W (ms : List MatchRow) (ps : List Part) (s w : Nat) :
    labelForWorld T_WORLD_WOMEN "runner" ∈ dryRunWorldTagLabels ms ps s w ↔
      w ∈ runnersUp ms ps s T_WORLD_WOMEN := by
  simp [dryRunWorldTagLabels, worldTagLabelsFor, mem_tagIf, labelForWorld,
    T_WORLD_MEN, T_WORLD_WOMEN, T_TAG_WORLD]

theorem mem_drwt_sf_W (ms : List MatchRow) (ps : List Part) (s w : Nat) :
    labelForWorld T_WORLD_WOMEN "sf" ∈ dryRunWorldTagLabels ms ps s w ↔
      w ∈ semiFinalists ms ps s T_WORLD_WOMEN := by
  simp [dryRunWorldTagLabels, worldTagLabelsFor, mem_tagIf, labelForWorld,
    T_WORLD_MEN, T_WORLD_WOMEN, T_TAG_WORLD]

theorem mem_drwt_qf_W (ms : List MatchRow) (ps : List Part) (s w : Nat) :
    labelForWorld T_WORLD_WOMEN "qf" ∈ dryRunWorldTagLabels ms ps s w ↔
      w ∈ quarterFinalists ms ps s T_WORLD_WOMEN := by
  simp [dryRunWorldTagLabels, worldTagLabelsFor, mem_tagIf, labelForWorld,
    T_WORLD_MEN, T_WORLD_WOMEN, T_TAG_WORLD]

theorem mem_drwt_champ_T (ms : List MatchRow) (ps : List Part) (s w : Nat) :
    labelForWorld T_TAG_WORLD "champ" ∈ dryRunWorldTagLabels ms ps s w ↔
      w ∈ champions ms ps s T_TAG_WORLD := by
  simp [dryRunWorldTagLabels, worldTagLabelsFor, mem_tagIf, labelForWorld,
    T_WORLD_MEN, T_WORLD_WOMEN, T_TAG_WORLD]

theorem mem_drwt_runner_T (ms : List MatchRow) (ps : List Part) (s w : Nat) :
    labelForWorld T_TAG_WORLD "runner" ∈ dryRunWorldTagLabels ms ps s w ↔
      w ∈ runnersUp ms ps s T_TAG_WORLD := by
  simp [dryRunWorldTagLabels, worldTagLabelsFor, mem_tagIf, labelForWorld,
    T_WORLD_MEN, T_WORLD_WOMEN, T_TAG_WORLD]

theorem mem_drwt_sf_T (ms : List MatchRow) (ps : List Part) (s w : Nat) :
    labelForWorld T_TAG_WORLD "sf" ∈ dryRunWorldTagLabels ms ps s w ↔
      w ∈ semiFinalists ms ps s T_TAG_WORLD := by
  simp [dryRunWorldTagLabels, worldTagLabelsFor, mem_tagIf, labelForWorld,
    T_WORLD_MEN, T_WORLD_WOMEN, T_TAG_WORLD]

/-- The Tag tournament emits no quarter-finalist label at all
(`if T in (T_WORLD_MEN, T_WORLD_WOMEN)` skips it). -/
theorem not_mem_drwt_qf_T (ms : List MatchRow) (ps : List Part) (s w : Nat) :
    labelForWorld T_TAG_WORLD "qf" ∉ dryRunWorldTagLabels ms ps s w := by
  simp [dryRunWorldTagLabels, worldTagLabelsFor, mem_tagIf, labelForWorld,
    T_WORLD_MEN, T_WORLD_WOMEN, T_TAG_WORLD]

/-- C2: for every bracketed tournament of `dry_run_world_tag`
(World Men / World Women / Tag) and every season, the derived label set
of a competitor never contains both that tournament's semi-finalist and
quarter-finalist labels, and holding its champion or runner-up label
excludes both lower-tier labels for that tournament and season. -/
theorem c2_suppression_invariant (ms : List MatchRow) (ps : List Part) (s : Nat)
    (T : String) (w : Nat)
    (hT : T = T_WORLD_MEN ∨ T = T_WORLD_WOMEN ∨ T = T_TAG_WORLD) :
    (labelForWorld T "sf" ∈ dryRunWorldTagLabels ms ps s w →
      labelForWorld T "qf" ∉ dryRunWorldTagLabels ms ps s w)
    ∧ ((labelForWorld T "champ" ∈ dryRunWorldTagLabels ms ps s w ∨
        labelForWorld T "runner" ∈ dryRunWorldTagLabels ms ps s w) →
      labelForWorld T "sf" ∉ dryRunWorldTagLabels ms ps s w ∧
      labelForWorld T "qf" ∉ dryRunWorldTagLabels ms ps s w) := by
  rcases hT with hT | hT | hT <;> subst hT
  · rw [mem_drwt_sf_M, mem_drwt_qf_M, mem_drwt_champ_M, mem_drwt_runner_M]
    refine ⟨semi_not_quarter ms ps s T_WORLD_MEN w, ?_⟩
    intro h0
    have hfp : w ∈ finalParticipants ms ps s T_WORLD_MEN := by
      unfold finalParticipants
      rcases h0 with hc | hr
      · exact List.mem_append.mpr (Or.inl hc)
      · exact List.mem_append.mpr (Or.inr hr)
    exact ⟨finalParticipant_not_semi ms ps s T_WORLD_MEN w hfp,
      finalParticipant_not_quarter ms ps s T_WORLD_MEN w hfp⟩
  · rw [mem_drwt_sf_W, mem_drwt_qf_W, mem_drwt_champ_W, mem_drwt_runner_W]
    refine ⟨semi_not_quarter ms ps s T_WORLD_WOMEN w, ?_⟩
    intro h0
    have hfp : w ∈ finalParticipants ms ps s T_WORLD_WOMEN := by
      unfold finalParticipants
      rcases h0 with hc | hr
      · exact List.mem_append.mpr (Or.inl hc)
      · exact List.mem_append.mpr (Or.inr hr)
    exact ⟨finalParticipant_not_semi ms ps s T_WORLD_WOMEN w hfp,
      finalParticipant_not_quarter ms ps s T_WORLD_WOMEN w hfp⟩
  · rw [mem_drwt_sf_T, mem_drwt_champ_T, mem_drwt_runner_T]
    refine ⟨fun _ => not_mem_drwt_qf_T ms ps s w, ?_⟩
    intro h0
    have hfp : w ∈ finalParticipants ms ps s T_TAG_WORLD := by
      unfold finalParticipants
      rcases h0 with hc | hr
      · exact List.mem_append.mpr (Or.inl hc)
      · exact List.mem_append.mpr (Or.inr hr)
    exact ⟨finalParticipant_not_semi ms ps s T_TAG_WORLD w hfp,
      not_mem_drwt_qf_T ms ps s w⟩



/-- Witness for C2 at a concrete season: a final won by wrestler 1 over
wrestler 2 in the Mens World Championship. -/
theorem c2_witness :
    (labelForWorld T_WORLD_MEN "sf" ∈
        dryRunWorldTagLabels [⟨10, 1, "Mens World Championship", "Final", some 1, none, none⟩]
          [⟨10, 1, 1⟩, ⟨10, 2, 2⟩] 1 1 →
      labelForWorld T_WORLD_MEN "qf" ∉
        dryRunWorldTagLabels [⟨10, 1, "Mens World Championship", "Final", some 1, none, none⟩]
          [⟨10, 1, 1⟩, ⟨10, 2, 2⟩] 1 1)
    ∧ ((labelForWorld T_WORLD_MEN "champ" ∈
          dryRunWorldTagLabels [⟨10, 1, "Mens World Championship", "Final", some 1, none, none⟩]
            [⟨10, 1, 1⟩, ⟨10, 2, 2⟩] 1 1 ∨
        labelForWorld T_WORLD_MEN "runner" ∈
          dryRunWorldTagLabels [⟨10, 1, "Mens World Championship", "Final", some 1, none, none⟩]
            [⟨10, 1, 1⟩, ⟨10, 2, 2⟩] 1 1) →
      labelForWorld T_WORLD_MEN "sf" ∉
        dryRunWorldTagLabels [⟨10, 1, "Mens World Championship", "Final", some 1, none, none⟩]
          [⟨10, 1, 1⟩, ⟨10, 2, 2⟩] 1 1 ∧
      labelForWorld T_WORLD_MEN "qf" ∉
        dryRunWorldTagLabels [⟨10, 1, "Mens World Championship", "Final", some 1, none, none⟩]
          [⟨10, 1, 1⟩, ⟨10, 2, 2⟩] 1 1) :=
  c2_suppression_invariant _ _ 1 T_WORLD_MEN 1 (Or.inl rfl)

/-! # C3: the semi-finalist tier and finals suppression -/

theorem sideMembers_subset_matchMembers (ps : List Part) (mid side w : Nat)
    (h : w ∈ sideMembers ps mid side) : w ∈ matchMembers ps mid := by
  simp only [sideMembers, List.mem_map] at h
  obtain ⟨p, hp, hw⟩ := h
  have := List.mem_filter.mp hp
  simp only [matchMembers, List.mem_map]
  refine ⟨p, List.mem_filter.mpr ⟨this.1, ?_⟩, hw⟩
  have := this.2
  simp only [Bool.and_eq_true, beq_iff_eq] at this
  simp [this.1]

theorem mem_losersOf_iff (ps : List Part) (m : MatchRow) (w : Nat) :
    w ∈ losersOf ps (some m) ↔
      ∃ ws, m.winnerSide = some ws ∧
        w ∈ matchMembers ps m.id ∧ w ∉ sideMembers ps m.id ws := by
  cases hw : m.winnerSide with
  | none => simp [losersOf, hw]
  | some ws => simp [losersOf, hw, List.mem_filter]

/-- `final_participants` is exactly: the final exists, has a declared
winning side, and the wrestler appeared in it (on any side).  In
particular a drawn final contributes no one. -/
theorem mem_finalParticipants_iff (ms : List MatchRow) (ps : List Part) (s : Nat)
    (T : String) (w : Nat) :
    w ∈ finalParticipants ms ps s T ↔
      ∃ fm, finalMatch ms s T = some fm ∧ (∃ fws, fm.winnerSide = some fws) ∧
        w ∈ matchMembers ps fm.id := by
  unfold finalParticipants champions runnersUp
  cases hfm : finalMatch ms s T with
  | none => simp [winnersOf, losersOf]
  | some fm =>
    cases hws : fm.winnerSide with
    | none => simp [winnersOf, losersOf, hws]
    | some fws =>
      simp only [winnersOf, losersOf, hws, List.mem_append, List.mem_filter]
      constructor
      · rintro (hw | ⟨hm, -⟩)
        · exact ⟨fm, rfl, ⟨fws, hws⟩, sideMembers_subset_matchMembers ps fm.id fws w hw⟩
        · exact ⟨fm, rfl, ⟨fws, hws⟩, hm⟩
      · rintro ⟨fm2, heq, -, hm⟩
        rw [← Option.some.inj heq] at hm
        by_cases hside : w ∈ sideMembers ps fm.id fws
        · exact Or.inl hside
        · exact Or.inr ⟨hm, by simpa using hside⟩

/-- C3, counterexample to the claim as stated: season 1 of the Mens
World Championship has a final (match 2, a draw: `winner_side` NULL) in
which wrestler 2 appeared, and a semi-final (match 1) which wrestler 2
lost; because `_winners_and_losers` returns empty sets for the drawn
final, `final_participants` is empty and wrestler 2 *does* receive the
semi-finalist label although they appeared in the final. -/
theorem c3_counterexample :
    (finalMatch
        [⟨1, 1, "Mens World Championship", "Semi Final", some 1, none, none⟩,
         ⟨2, 1, "Mens World Championship", "Final", none, none, none⟩]
        1 T_WORLD_MEN).isSome = true
    ∧ 2 ∈ matchMembers [⟨1, 1, 1⟩, ⟨1, 2, 2⟩, ⟨2, 1, 1⟩, ⟨2, 2, 2⟩] 2
    ∧ 2 ∈ semiFinalists
        [⟨1, 1, "Mens World Championship", "Semi Final", some 1, none, none⟩,
         ⟨2, 1, "Mens World Championship", "Final", none, none, none⟩]
        [⟨1, 1, 1⟩, ⟨1, 2, 2⟩, ⟨2, 1, 1⟩, ⟨2, 2, 2⟩] 1 T_WORLD_MEN := by
  refine ⟨by decide, by decide, by decide⟩

/-- C3 (amended): the semi-finalist tier is assigned exactly to the
competitors on losing sides of semi-final matches with a declared
winner who did not appear in a final *with a declared winning side*;
participants of a drawn / no-contest final are **not** excluded (they
are excluded only when the final declared a winner). -/
theorem c3_semifinalist_exact (ms : List MatchRow) (ps : List Part) (s : Nat)
    (T : String) (w : Nat) :
    w ∈ semiFinalists ms ps s T ↔
      ((∃ m ∈ roundMatches ms s T ROUND_SF, ∃ ws, m.winnerSide = some ws ∧
          w ∈ matchMembers ps m.id ∧ w ∉ sideMembers ps m.id ws)
        ∧ ¬ ∃ fm, finalMatch ms s T = some fm ∧ (∃ fws, fm.winnerSide = some fws) ∧
            w ∈ matchMembers ps fm.id) := by
  rw [mem_semiFinalists_iff]
  constructor
  · rintro ⟨sf, hsfm, hl, hnf⟩
    obtain ⟨ws, hws, hm, hside⟩ := (mem_losersOf_iff ps sf w).mp hl
    refine ⟨⟨sf, hsfm, ws, hws, hm, hside⟩, ?_⟩
    intro hfin
    exact hnf ((mem_finalParticipants_iff ms ps s T w).mpr hfin)
  · rintro ⟨⟨sf, hsfm, ws, hws, hm, hside⟩, hnf⟩
    refine ⟨sf, hsfm, (mem_losersOf_iff ps sf w).mpr ⟨ws, hws, hm, hside⟩, ?_⟩
    intro hfp
    exact hnf ((mem_finalParticipants_iff ms ps s T w).mp hfp)

/-! # C7: one-off tournaments (vacancy on draws, winner-only labels)

Per one-off tournament: its winner label occurs in the derived set
exactly for members of the one-off winner set, and no runner-up /
semi-finalist / quarter-finalist spelling of the tournament's name ever
occurs (those strings are outside the producible vocabulary). -/

theorem oneOffFacts_rumbleM (ms : List MatchRow) (ps : List Part) (s w : Nat) :
    ("Mens Royal Rumble Winner" ∈ dryRunAllLabels ms ps s w ↔
      w ∈ oneOffWinners ms ps s T_RUMBLE_MEN)
    ∧ "Mens Royal Rumble" ++ " Runner-up" ∉ dryRunAllLabels ms ps s w
    ∧ "Mens Royal Rumble" ++ " Semi-Finalist" ∉ dryRunAllLabels ms ps s w
    ∧ "Mens Royal Rumble" ++ " Quarter-Finalist" ∉ dryRunAllLabels ms ps s w := by
  refine ⟨?_, ?_, ?_, ?_⟩ <;>
    simp [dryRunAllLabels, dryRunWorldTagLabels, worldTagLabelsFor, nxtLabelsFor,
      finalOnlyLabelsFor, ONE_OFF_WINNER_LABELS, mem_tagIf, labelForWorld, labelForNxt,
      labelForFinalOnly, T_WORLD_MEN, T_WORLD_WOMEN, T_TAG_WORLD, T_NXT_MEN, T_NXT_WOMEN,
      T_UNDERGROUND_MEN, T_UNDERGROUND_WOMEN, T_HARDCORE_MEN, T_HARDCORE_WOMEN,
      T_RUMBLE_MEN, T_RUMBLE_WOMEN, T_ELIM_MEN, T_ELIM_WOMEN, T_ANDRE_MEN, T_CHYNA_WOMEN,
      T_DUSTY_MEN, T_MAE_WOMEN, T_US_MEN, T_US_WOMEN]

theorem oneOffFacts_rumbleW (ms : List MatchRow) (ps : List Part) (s w : Nat) :
    ("Womens Royal Rumble Winner" ∈ dryRunAllLabels ms ps s w ↔
      w ∈ oneOffWinners ms ps s T_RUMBLE_WOMEN)
    ∧ "Womens Royal Rumble" ++ " Runner-up" ∉ dryRunAllLabels ms ps s w
    ∧ "Womens Royal Rumble" ++ " Semi-Finalist" ∉ dryRunAllLabels ms ps s w
    ∧ "Womens Royal Rumble" ++ " Quarter-Finalist" ∉ dryRunAllLabels ms ps s w := by
  refine ⟨?_, ?_, ?_, ?_⟩ <;>
    simp [dryRunAllLabels, dryRunWorldTagLabels, worldTagLabelsFor, nxtLabelsFor,
      finalOnlyLabelsFor, ONE_OFF_WINNER_LABELS, mem_tagIf, labelForWorld, labelForNxt,
      labelForFinalOnly, T_WORLD_MEN, T_WORLD_WOMEN, T_TAG_WORLD, T_NXT_MEN, T_NXT_WOMEN,
      T_UNDERGROUND_MEN, T_UNDERGROUND_WOMEN, T_HARDCORE_MEN, T_HARDCORE_WOMEN,
      T_RUMBLE_MEN, T_RUMBLE_WOMEN, T_ELIM_MEN, T_ELIM_WOMEN, T_ANDRE_MEN, T_CHYNA_WOMEN,
      T_DUSTY_MEN, T_MAE_WOMEN, T_US_MEN, T_US_WOMEN]

theorem oneOffFacts_elimM (ms : List MatchRow) (ps : List Part) (s w : Nat) :
    ("Mens Elimination Chamber Winner" ∈ dryRunAllLabels ms ps s w ↔
      w ∈ oneOffWinners ms ps s T_ELIM_MEN)
    ∧ "Mens Elimination Chamber" ++ " Runner-up" ∉ dryRunAllLabels ms ps s w
    ∧ "Mens Elimination Chamber" ++ " Semi-Finalist" ∉ dryRunAllLabels ms ps s w
    ∧ "Mens Elimination Chamber" ++ " Quarter-Finalist" ∉ dryRunAllLabels ms ps s w := by
  refine ⟨?_, ?_, ?_, ?_⟩ <;>
    simp [dryRunAllLabels, dryRunWorldTagLabels, worldTagLabelsFor, nxtLabelsFor,
      finalOnlyLabelsFor, ONE_OFF_WINNER_LABELS, mem_tagIf, labelForWorld, labelForNxt,
      labelForFinalOnly, T_WORLD_MEN, T_WORLD_WOMEN, T_TAG_WORLD, T_NXT_MEN, T_NXT_WOMEN,
      T_UNDERGROUND_MEN, T_UNDERGROUND_WOMEN, T_HARDCORE_MEN, T_HARDCORE_WOMEN,
      T_RUMBLE_MEN, T_RUMBLE_WOMEN, T_ELIM_MEN, T_ELIM_WOMEN, T_ANDRE_MEN, T_CHYNA_WOMEN,
      T_DUSTY_MEN, T_MAE_WOMEN, T_US_MEN, T_US_WOMEN]

theorem oneOffFacts_elimW (ms : List MatchRow) (ps : List Part) (s w : Nat) :
    ("Womens Elimination Chamber Winner" ∈ dryRunAllLabels ms ps s w ↔
      w ∈ oneOffWinners ms ps s T_ELIM_WOMEN)
    ∧ "Womens Elimination Chamber" ++ " Runner-up" ∉ dryRunAllLabels ms ps s w
    ∧ "Womens Elimination Chamber" ++ " Semi-Finalist" ∉ dryRunAllLabels ms ps s w
    ∧ "Womens Elimination Chamber" ++ " Quarter-Finalist" ∉ dryRunAllLabels ms ps s w := by
  refine ⟨?_, ?_, ?_, ?_⟩ <;>
    simp [dryRunAllLabels, dryRunWorldTagLabels, worldTagLabelsFor, nxtLabelsFor,
      finalOnlyLabelsFor, ONE_OFF_WINNER_LABELS, mem_tagIf, labelForWorld, labelForNxt,
      labelForFinalOnly, T_WORLD_MEN, T_WORLD_WOMEN, T_TAG_WORLD, T_NXT_MEN, T_NXT_WOMEN,
      T_UNDERGROUND_MEN, T_UNDERGROUND_WOMEN, T_HARDCORE_MEN, T_HARDCORE_WOMEN,
      T_RUMBLE_MEN, T_RUMBLE_WOMEN, T_ELIM_MEN, T_ELIM_WOMEN, T_ANDRE_MEN, T_CHYNA_WOMEN,
      T_DUSTY_MEN, T_MAE_WOMEN, T_US_MEN, T_US_WOMEN]

theorem oneOffFacts_andreM (ms : List MatchRow) (ps : List Part) (s w : Nat) :
    ("Mens Andre Battle Royal Winner" ∈ dryRunAllLabels ms ps s w ↔
      w ∈ oneOffWinners ms ps s T_ANDRE_MEN)
    ∧ "Mens Andre Battle Royal" ++ " Runner-up" ∉ dryRunAllLabels ms ps s w
    ∧ "Mens Andre Battle Royal" ++ " Semi-Finalist" ∉ dryRunAllLabels ms ps s w
    ∧ "Mens Andre Battle Royal" ++ " Quarter-Finalist" ∉ dryRunAllLabels ms ps s w := by
  refine ⟨?_, ?_, ?_, ?_⟩ <;>
    simp [dryRunAllLabels, dryRunWorldTagLabels, worldTagLabelsFor, nxtLabelsFor,
      finalOnlyLabelsFor, ONE_OFF_WINNER_LABELS, mem_tagIf, labelForWorld, labelForNxt,
      labelForFinalOnly, T_WORLD_MEN, T_WORLD_WOMEN, T_TAG_WORLD, T_NXT_MEN, T_NXT_WOMEN,
      T_UNDERGROUND_MEN, T_UNDERGROUND_WOMEN, T_HARDCORE_MEN, T_HARDCORE_WOMEN,
      T_RUMBLE_MEN, T_RUMBLE_WOMEN, T_ELIM_MEN, T_ELIM_WOMEN, T_ANDRE_MEN, T_CHYNA_WOMEN,
      T_DUSTY_MEN, T_MAE_WOMEN, T_US_MEN, T_US_WOMEN]

theorem oneOffFacts_chynaW (ms : List MatchRow) (ps : List Part) (s w : Nat) :
    ("Womens Chyna Battle Royal Winner" ∈ dryRunAllLabels ms ps s w ↔
      w ∈ oneOffWinners ms ps s T_CHYNA_WOMEN)
    ∧ "Womens Chyna Battle Royal" ++ " Runner-up" ∉ dryRunAllLabels ms ps s w
    ∧ "Womens Chyna Battle Royal" ++ " Semi-Finalist" ∉ dryRunAllLabels ms ps s w
    ∧ "Womens Chyna Battle Royal" ++ " Quarter-Finalist" ∉ dryRunAllLabels ms ps s w := by
  refine ⟨?_, ?_, ?_, ?_⟩ <;>
    simp [dryRunAllLabels, dryRunWorldTagLabels, worldTagLabelsFor, nxtLabelsFor,
      finalOnlyLabelsFor, ONE_OFF_WINNER_LABELS, mem_tagIf, labelForWorld, labelForNxt,
      labelForFinalOnly, T_WORLD_MEN, T_WORLD_WOMEN, T_TAG_WORLD, T_NXT_MEN, T_NXT_WOMEN,
      T_UNDERGROUND_MEN, T_UNDERGROUND_WOMEN, T_HARDCORE_MEN, T_HARDCORE_WOMEN,
      T_RUMBLE_MEN, T_RUMBLE_WOMEN, T_ELIM_MEN, T_ELIM_WOMEN, T_ANDRE_MEN, T_CHYNA_WOMEN,
      T_DUSTY_MEN, T_MAE_WOMEN, T_US_MEN, T_US_WOMEN]

theorem oneOffFacts_dustyM (ms : List MatchRow) (ps : List Part) (s w : Nat) :
    ("Mens Dusty Rhodes Gauntlet Winner" ∈ dryRunAllLabels ms ps s w ↔
      w ∈ oneOffWinners ms ps s T_DUSTY_MEN)
    ∧ "Mens Dusty Rhodes Gauntlet" ++ " Runner-up" ∉ dryRunAllLabels ms ps s w
    ∧ "Mens Dusty Rhodes Gauntlet" ++ " Semi-Finalist" ∉ dryRunAllLabels ms ps s w
    ∧ "Mens Dusty Rhodes Gauntlet" ++ " Quarter-Finalist" ∉ dryRunAllLabels ms ps s w := by
  refine ⟨?_, ?_, ?_, ?_⟩ <;>
    simp [dryRunAllLabels, dryRunWorldTagLabels, worldTagLabelsFor, nxtLabelsFor,
      finalOnlyLabelsFor, ONE_OFF_WINNER_LABELS, mem_tagIf, labelForWorld, labelForNxt,
      labelForFinalOnly, T_WORLD_MEN, T_WORLD_WOMEN, T_TAG_WORLD, T_NXT_MEN, T_NXT_WOMEN,
      T_UNDERGROUND_MEN, T_UNDERGROUND_WOMEN, T_HARDCORE_MEN, T_HARDCORE_WOMEN,
      T_RUMBLE_MEN, T_RUMBLE_WOMEN, T_ELIM_MEN, T_ELIM_WOMEN, T_ANDRE_MEN, T_CHYNA_WOMEN,
      T_DUSTY_MEN, T_MAE_WOMEN, T_US_MEN, T_US_WOMEN]

theorem oneOffFacts_maeW (ms : List MatchRow) (ps : List Part) (s w : Nat) :
    ("Womens Mae Young Gauntlet Winner" ∈ dryRunAllLabels ms ps s w ↔
      w ∈ oneOffWinners ms ps s T_MAE_WOMEN)
    ∧ "Womens Mae Young Gauntlet" ++ " Runner-up" ∉ dryRunAllLabels ms ps s w
    ∧ "Womens Mae Young Gauntlet" ++ " Semi-Finalist" ∉ dryRunAllLabels ms ps s w
    ∧ "Womens Mae Young Gauntlet" ++ " Quarter-Finalist" ∉ dryRunAllLabels ms ps s w := by
  refine ⟨?_, ?_, ?_, ?_⟩ <;>
    simp [dryRunAllLabels, dryRunWorldTagLabels, worldTagLabelsFor, nxtLabelsFor,
      finalOnlyLabelsFor, ONE_OFF_WINNER_LABELS, mem_tagIf, labelForWorld, labelForNxt,
      labelForFinalOnly, T_WORLD_MEN, T_WORLD_WOMEN, T_TAG_WORLD, T_NXT_MEN, T_NXT_WOMEN,
      T_UNDERGROUND_MEN, T_UNDERGROUND_WOMEN, T_HARDCORE_MEN, T_HARDCORE_WOMEN,
      T_RUMBLE_MEN, T_RUMBLE_WOMEN, T_ELIM_MEN, T_ELIM_WOMEN, T_ANDRE_MEN, T_CHYNA_WOMEN,
      T_DUSTY_MEN, T_MAE_WOMEN, T_US_MEN, T_US_WOMEN]

/-- C7: for a one-off tournament (its `(tournament, winner-label)` pair
drawn from `_ONE_OFF_WINNER_LABEL`) whose season match is `m`: a draw /
no-contest `m` (NULL `winner_side`) produces the winner label for
nobody (vacancy, not an error); a declared winning side gives the
winner label exactly to that side's members; and no runner-up or
lower-tier spelling of the tournament's name is ever produced for any
side. -/
theorem c7_one_off_winner_only (ms : List MatchRow) (ps : List Part) (s : Nat)
    (T L : String) (hT : (T, L) ∈ ONE_OFF_WINNER_LABELS)
    (m : MatchRow) (hm : singleMatch ms s T = some m) :
    (m.winnerSide = none → ∀ w, L ∉ dryRunAllLabels ms ps s w)
    ∧ (∀ ws, m.winnerSide = some ws →
        ∀ w, (L ∈ dryRunAllLabels ms ps s w ↔ w ∈ sideMembers ps m.id ws))
    ∧ (∀ w, (T ++ " Runner-up") ∉ dryRunAllLabels ms ps s w
        ∧ (T ++ " Semi-Finalist") ∉ dryRunAllLabels ms ps s w
        ∧ (T ++ " Quarter-Finalist") ∉ dryRunAllLabels ms ps s w) := by
  simp only [ONE_OFF_WINNER_LABELS, List.mem_cons, List.not_mem_nil, or_false,
    Prod.mk.injEq] at hT
  rcases hT with hc1 | hc2 | hc3 | hc4 | hc5 | hc6 | hc7 | hc8

  · obtain ⟨rfl, rfl⟩ := hc1
    refine ⟨?_, ?_, ?_⟩
    · intro hnone w
      rw [(oneOffFacts_rumbleM ms ps s w).1]
      simp [oneOffWinners, hm, winnersOf, hnone]
    · intro ws hws w
      rw [(oneOffFacts_rumbleM ms ps s w).1]
      simp [oneOffWinners, hm, winnersOf, hws]
    · intro w
      exact ⟨(oneOffFacts_rumbleM ms ps s w).2.1, (oneOffFacts_rumbleM ms ps s w).2.2.1,
        (oneOffFacts_rumbleM ms ps s w).2.2.2⟩
  · obtain ⟨rfl, rfl⟩ := hc2
    refine ⟨?_, ?_, ?_⟩
    · intro hnone w
      rw [(oneOffFacts_rumbleW ms ps s w).1]
      simp [oneOffWinners, hm, winnersOf, hnone]
    · intro ws hws w
      rw [(oneOffFacts_rumbleW ms ps s w).1]
      simp [oneOffWinners, hm, winnersOf, hws]
    · intro w
      exact ⟨(oneOffFacts_rumbleW ms ps s w).2.1, (oneOffFacts_rumbleW ms ps s w).2.2.1,
        (oneOffFacts_rumbleW ms ps s w).2.2.2⟩
  · obtain ⟨rfl, rfl⟩ := hc3
    refine ⟨?_, ?_, ?_⟩
    · intro hnone w
      rw [(oneOffFacts_elimM ms ps s w).1]
      simp [oneOffWinners, hm, winnersOf, hnone]
    · intro ws hws w
      rw [(oneOffFacts_elimM ms ps s w).1]
      simp [oneOffWinners, hm, winnersOf, hws]
    · intro w
      exact ⟨(oneOffFacts_elimM ms ps s w).2.1, (oneOffFacts_elimM ms ps s w).2.2.1,
        (oneOffFacts_elimM ms ps s w).2.2.2⟩
  · obtain ⟨rfl, rfl⟩ := hc4
    refine ⟨?_, ?_, ?_⟩
    · intro hnone w
      rw [(oneOffFacts_elimW ms ps s w).1]
      simp [oneOffWinners, hm, winnersOf, hnone]
    · intro ws hws w
      rw [(oneOffFacts_elimW ms ps s w).1]
      simp [oneOffWinners, hm, winnersOf, hws]
    · intro w
      exact ⟨(oneOffFacts_elimW ms ps s w).2.1, (oneOffFacts_elimW ms ps s w).2.2.1,
        (oneOffFacts_elimW ms ps s w).2.2.2⟩
  · obtain ⟨rfl, rfl⟩ := hc5
    refine ⟨?_, ?_, ?_⟩
    · intro hnone w
      rw [(oneOffFacts_andreM ms ps s w).1]
      simp [oneOffWinners, hm, winnersOf, hnone]
    · intro ws hws w
      rw [(oneOffFacts_andreM ms ps s w).1]
      simp [oneOffWinners, hm, winnersOf, hws]
    · intro w
      exact ⟨(oneOffFacts_andreM ms ps s w).2.1, (oneOffFacts_andreM ms ps s w).2.2.1,
        (oneOffFacts_andreM ms ps s w).2.2.2⟩
  · obtain ⟨rfl, rfl⟩ := hc6
    refine ⟨?_, ?_, ?_⟩
    · intro hnone w
      rw [(oneOffFacts_chynaW ms ps s w).1]
      simp [oneOffWinners, hm, winnersOf, hnone]
    · intro ws hws w
      rw [(oneOffFacts_chynaW ms ps s w).1]
      simp [oneOffWinners, hm, winnersOf, hws]
    · intro w
      exact ⟨(oneOffFacts_chynaW ms ps s w).2.1, (oneOffFacts_chynaW ms ps s w).2.2.1,
        (oneOffFacts_chynaW ms ps s w).2.2.2⟩
  · obtain ⟨rfl, rfl⟩ := hc7
    refine ⟨?_, ?_, ?_⟩
    · intro hnone w
      rw [(oneOffFacts_dustyM ms ps s w).1]
      simp [oneOffWinners, hm, winnersOf, hnone]
    · intro ws hws w
      rw [(oneOffFacts_dustyM ms ps s w).1]
      simp [oneOffWinners, hm, winnersOf, hws]
    · intro w
      exact ⟨(oneOffFacts_dustyM ms ps s w).2.1, (oneOffFacts_dustyM ms ps s w).2.2.1,
        (oneOffFacts_dustyM ms ps s w).2.2.2⟩
  · obtain ⟨rfl, rfl⟩ := hc8
    refine ⟨?_, ?_, ?_⟩
    · intro hnone w
      rw [(oneOffFacts_maeW ms ps s w).1]
      simp [oneOffWinners, hm, winnersOf, hnone]
    · intro ws hws w
      rw [(oneOffFacts_maeW ms ps s w).1]
      simp [oneOffWinners, hm, winnersOf, hws]
    · intro w
      exact ⟨(oneOffFacts_maeW ms ps s w).2.1, (oneOffFacts_maeW ms ps s w).2.2.1,
        (oneOffFacts_maeW ms ps s w).2.2.2⟩

/-- Witness for C7: a drawn Mens Royal Rumble match in season 2. -/
theorem c7_witness :
    ((⟨4, 2, "Mens Royal Rumble", "", none, none, none⟩ : MatchRow).winnerSide = none →
      ∀ w, "Mens Royal Rumble Winner" ∉
        dryRunAllLabels [⟨4, 2, "Mens Royal Rumble", "", none, none, none⟩]
          [⟨4, 1, 7⟩, ⟨4, 2, 8⟩] 2 w)
    ∧ (∀ ws, (⟨4, 2, "Mens Royal Rumble", "", none, none, none⟩ : MatchRow).winnerSide = some ws →
        ∀ w, ("Mens Royal Rumble Winner" ∈
            dryRunAllLabels [⟨4, 2, "Mens Royal Rumble", "", none, none, none⟩]
              [⟨4, 1, 7⟩, ⟨4, 2, 8⟩] 2 w ↔
          w ∈ sideMembers [⟨4, 1, 7⟩, ⟨4, 2, 8⟩]
            (⟨4, 2, "Mens Royal Rumble", "", none, none, none⟩ : MatchRow).id ws))
    ∧ (∀ w, (T_RUMBLE_MEN ++ " Runner-up") ∉
          dryRunAllLabels [⟨4, 2, "Mens Royal Rumble", "", none, none, none⟩]
            [⟨4, 1, 7⟩, ⟨4, 2, 8⟩] 2 w
        ∧ (T_RUMBLE_MEN ++ " Semi-Finalist") ∉
          dryRunAllLabels [⟨4, 2, "Mens Royal Rumble", "", none, none, none⟩]
            [⟨4, 1, 7⟩, ⟨4, 2, 8⟩] 2 w
        ∧ (T_RUMBLE_MEN ++ " Quarter-Finalist") ∉
          dryRunAllLabels [⟨4, 2, "Mens Royal Rumble", "", none, none, none⟩]
            [⟨4, 1, 7⟩, ⟨4, 2, 8⟩] 2 w) :=
  c7_one_off_winner_only [⟨4, 2, "Mens Royal Rumble", "", none, none, none⟩]
    [⟨4, 1, 7⟩, ⟨4, 2, 8⟩] 2 T_RUMBLE_MEN "Mens Royal Rumble Winner" (by decide)
    ⟨4, 2, "Mens Royal Rumble", "", none, none, none⟩ (by decide)

/-! # Watermark behaviour of the persist endpoints (C6, C9, C10) -/

theorem getLast?_append_singleton {α : Type} (l : List α) (a : α) :
    (l ++ [a]).getLast? = some a :=
  List.getLast?_concat l

/-- After `_record_highlight_run`, the latest stored watermark row for
the season is the row just appended. -/
theorem latestRun_record (ms : List MatchRow) (runs : List RunRow) (s : Nat) :
    latestRun (recordHighlightRun ms runs s) s
      = some ⟨some s, curDay ms s, curOrder ms s, curMatchId ms s⟩ := by
  unfold latestRun recordHighlightRun
  rw [List.filter_append]
  have h1 : (([⟨some s, curDay ms s, curOrder ms s, curMatchId ms s⟩] : List RunRow).filter
      fun r => r.season == some s) = [⟨some s, curDay ms s, curOrder ms s, curMatchId ms s⟩] := by
    simp
  rw [h1, getLast?_append_singleton]

/-- Unfolding `persistIncremental` when no watermark row exists. -/
theorem persistIncremental_none (st : St) (s : Nat)
    (h : latestRun st.highlightRuns s = none) :
    persistIncremental st s = (persistAllCore st s, false) := by
  unfold persistIncremental
  rw [h]

/-- Unfolding `persistIncremental` when a watermark row exists. -/
theorem persistIncremental_some (st : St) (s : Nat) (wm : RunRow)
    (h : latestRun st.highlightRuns s = some wm) :
    persistIncremental st s =
      if wm.lastDay = curDay st.matchesT s ∧ wm.lastOrder = curOrder st.matchesT s ∧
          pyOrNeg wm.lastMatchId = pyOrNeg (curMatchId st.matchesT s) then
        (st, true)
      else (persistAllCore st s, false) := by
  unfold persistIncremental
  rw [h]

/-- The recompute body leaves every collaborator table untouched. -/
theorem persistAllCore_frame (st : St) (s : Nat) :
    (persistAllCore st s).matchesT = st.matchesT
    ∧ (persistAllCore st s).participants = st.participants
    ∧ (persistAllCore st s).tagTeams = st.tagTeams
    ∧ (persistAllCore st s).tagTeamMembers = st.tagTeamMembers
    ∧ (persistAllCore st s).championships = st.championships
    ∧ (persistAllCore st s).championshipSeasons = st.championshipSeasons :=
  ⟨rfl, rfl, rfl, rfl, rfl, rfl⟩

/-- Directly after a recompute, the incremental endpoint's watermark
check matches the season's current maxima, so it no-ops. -/
theorem incremental_after_core (st : St) (s : Nat) :
    persistIncremental (persistAllCore st s) s = (persistAllCore st s, true) := by
  have h1 : latestRun (persistAllCore st s).highlightRuns s
      = some ⟨some s, curDay st.matchesT s, curOrder st.matchesT s, curMatchId st.matchesT s⟩ :=
    latestRun_record st.matchesT st.highlightRuns s
  rw [persistIncremental_some (persistAllCore st s) s _ h1]
  rw [if_pos ⟨rfl, rfl, rfl⟩]

/-- C6: calling the incremental recompute twice with the match store
unchanged in between makes the second call return the state of the
first call untouched (zero writes to any of the achievement, label,
and watermark tables) together with the no-op signal. -/
theorem c6_incremental_noop (st : St) (s : Nat) :
    persistIncremental ((persistIncremental st s).1) s
      = ((persistIncremental st s).1, true) := by
  rcases h : latestRun st.highlightRuns s with _ | wm
  · rw [persistIncremental_none st s h]
    exact incremental_after_core st s
  · rw [persistIncremental_some st s wm h]
    by_cases hc : wm.lastDay = curDay st.matchesT s ∧ wm.lastOrder = curOrder st.matchesT s ∧
        pyOrNeg wm.lastMatchId = pyOrNeg (curMatchId st.matchesT s)
    · rw [if_pos hc]
      rw [persistIncremental_some st s wm h, if_pos hc]
    · rw [if_neg hc]
      exact incremental_after_core st s

/-- C9: the side effects of both recompute endpoints are confined to the
achievement-record tables (`wrestler_highlights`, `team_highlights`,
and the `highlight_types` label registry written by `_label_id`) plus
the `highlight_runs` watermark table: `matches`, `match_participants`,
`tag_teams`, `tag_team_members`, `championships`, and
`championship_seasons` are never written. -/
theorem c9_side_effect_frame (st : St) (s : Nat) :
    ((persistAll st s).matchesT = st.matchesT
      ∧ (persistAll st s).participants = st.participants
      ∧ (persistAll st s).tagTeams = st.tagTeams
      ∧ (persistAll st s).tagTeamMembers = st.tagTeamMembers
      ∧ (persistAll st s).championships = st.championships
      ∧ (persistAll st s).championshipSeasons = st.championshipSeasons)
    ∧ (((persistIncremental st s).1).matchesT = st.matchesT
      ∧ ((persistIncremental st s).1).participants = st.participants
      ∧ ((persistIncremental st s).1).tagTeams = st.tagTeams
      ∧ ((persistIncremental st s).1).tagTeamMembers = st.tagTeamMembers
      ∧ ((persistIncremental st s).1).championships = st.championships
      ∧ ((persistIncremental st s).1).championshipSeasons = st.championshipSeasons) := by
  refine ⟨persistAllCore_frame st s, ?_⟩
  rcases h : latestRun st.highlightRuns s with _ | wm
  · rw [persistIncremental_none st s h]
    exact persistAllCore_frame st s
  · rw [persistIncremental_some st s wm h]
    by_cases hc : wm.lastDay = curDay st.matchesT s ∧ wm.lastOrder = curOrder st.matchesT s ∧
        pyOrNeg wm.lastMatchId = pyOrNeg (curMatchId st.matchesT s)
    · rw [if_pos hc]
      exact ⟨rfl, rfl, rfl, rfl, rfl, rfl⟩
    · rw [if_neg hc]
      exact persistAllCore_frame st s

/-- C10: the incremental endpoint's no-op decision depends only on the
stored watermark rows and the season's maximum
`(day_index, order_in_day, match id)` aggregates: two states with the
same watermark table and equal maxima (for example, the same matches
with one match's `winner_side` edited) get the same decision, and a
no-op decision returns the stored achievements untouched (stale data is
not refreshed). -/
theorem c10_noop_depends_only_on_watermark (st1 st2 : St) (s : Nat)
    (hruns : st1.highlightRuns = st2.highlightRuns)
    (hd : curDay st1.matchesT s = curDay st2.matchesT s)
    (ho : curOrder st1.matchesT s = curOrder st2.matchesT s)
    (hm : curMatchId st1.matchesT s = curMatchId st2.matchesT s) :
    (persistIncremental st1 s).2 = (persistIncremental st2 s).2
    ∧ ((persistIncremental st1 s).2 = true → (persistIncremental st1 s).1 = st1) := by
  constructor
  · rcases h : latestRun st2.highlightRuns s with _ | wm
    · rw [persistIncremental_none st1 s (hruns ▸ h), persistIncremental_none st2 s h]
    · rw [persistIncremental_some st1 s wm (hruns ▸ h), persistIncremental_some st2 s wm h]
      by_cases hc : wm.lastDay = curDay st2.matchesT s ∧ wm.lastOrder = curOrder st2.matchesT s ∧
          pyOrNeg wm.lastMatchId = pyOrNeg (curMatchId st2.matchesT s)
      · rw [if_pos hc, if_pos (by rw [hd, ho, hm]; exact hc)]
      · rw [if_neg hc, if_neg (by rw [hd, ho, hm]; exact hc)]
  · intro htrue
    rcases h : latestRun st1.highlightRuns s with _ | wm
    · rw [persistIncremental_none st1 s h] at htrue
      simp at htrue
    · rw [persistIncremental_some st1 s wm h] at htrue ⊢
      by_cases hc : wm.lastDay = curDay st1.matchesT s ∧ wm.lastOrder = curOrder st1.matchesT s ∧
          pyOrNeg wm.lastMatchId = pyOrNeg (curMatchId st1.matchesT s)
      · rw [if_pos hc]
      · rw [if_neg hc] at htrue
        simp at htrue

/-- Witness for C10: the same single-match season with the match's
`winner_side` edited from side 1 to side 2 and an up-to-date stored
watermark: the decision is a no-op in both states, and the no-op call
leaves the (stale) store untouched.  The extra final conjunct checks
that the decision really is `true` here. -/
theorem c10_witness :
    ((persistIncremental
        ⟨[⟨4, 1, "Mens Royal Rumble", "", some 1, none, none⟩], [⟨4, 1, 7⟩, ⟨4, 2, 8⟩],
          [], [], [], [], [], [], [], [⟨some 1, -1, -1, some 4⟩]⟩ 1).2
      = (persistIncremental
        ⟨[⟨4, 1, "Mens Royal Rumble", "", some 2, none, none⟩], [⟨4, 1, 7⟩, ⟨4, 2, 8⟩],
          [], [], [], [], [], [], [], [⟨some 1, -1, -1, some 4⟩]⟩ 1).2
    ∧ ((persistIncremental
        ⟨[⟨4, 1, "Mens Royal Rumble", "", some 1, none, none⟩], [⟨4, 1, 7⟩, ⟨4, 2, 8⟩],
          [], [], [], [], [], [], [], [⟨some 1, -1, -1, some 4⟩]⟩ 1).2 = true →
      (persistIncremental
        ⟨[⟨4, 1, "Mens Royal Rumble", "", some 1, none, none⟩], [⟨4, 1, 7⟩, ⟨4, 2, 8⟩],
          [], [], [], [], [], [], [], [⟨some 1, -1, -1, some 4⟩]⟩ 1).1
        = ⟨[⟨4, 1, "Mens Royal Rumble", "", some 1, none, none⟩], [⟨4, 1, 7⟩, ⟨4, 2, 8⟩],
          [], [], [], [], [], [], [], [⟨some 1, -1, -1, some 4⟩]⟩))
    ∧ (persistIncremental
        ⟨[⟨4, 1, "Mens Royal Rumble", "", some 1, none, none⟩], [⟨4, 1, 7⟩, ⟨4, 2, 8⟩],
          [], [], [], [], [], [], [], [⟨some 1, -1, -1, some 4⟩]⟩ 1).2 = true :=
  ⟨c10_noop_depends_only_on_watermark _ _ 1 rfl (by decide) (by decide) (by decide),
   by decide⟩

/-! # C8: the team achievement queries -/

/-- C8, counterexample to the claim as stated: run the persist-all
endpoint on a season whose Tag Team World final was won by team 1
(wrestlers 1, 2) over team 2 (wrestlers 3, 4), with team 3 losing the
semi-final.  `recompute_team_tag_highlights` stores a runner-up row for
team 2, and the DB-backed team query `team_highlights_db` returns it:
the team query's result is not champion-tier only. -/
theorem c8_counterexample :
    "1 x Tag Team World Championship Runner-up (Season 1)" ∈
      teamHighlightsDb
        (persistAll
          ⟨[⟨10, 1, "Tag Team World Championship", "Final", some 1, some 3, some 2⟩,
            ⟨9, 1, "Tag Team World Championship", "Semi Final", some 1, some 2, some 1⟩],
           [⟨10, 1, 1⟩, ⟨10, 1, 2⟩, ⟨10, 2, 3⟩, ⟨10, 2, 4⟩,
            ⟨9, 1, 3⟩, ⟨9, 1, 4⟩, ⟨9, 2, 5⟩, ⟨9, 2, 6⟩],
           [], [(1, 1), (1, 2), (2, 3), (2, 4), (3, 5), (3, 6)], [], [], [], [], [], []⟩ 1)
        2 (some 1) := by
  decide

/-- C8 (amended): the `championship_seasons`-backed team query
(`get_team_highlights`) is champion-tier only — every line it returns
renders some championship's name with the `Champion` suffix; the
DB-backed `team_highlights_db` query, by contrast, returns every stored
team label, including the runner-up and semi-finalist rows that
`recompute_team_tag_highlights` writes (see the counterexample). -/
theorem c8_champion_only_query (st : St) (tid s : Nat) (line : String)
    (h : line ∈ getTeamHighlights st tid s) :
    ∃ name, line = "1 x " ++ name ++ " Champion (Season " ++ toString s ++ ")" := by
  unfold getTeamHighlights at h
  obtain ⟨name, -, hline⟩ := List.mem_map.mp h
  exact ⟨name, hline.symm⟩

/-- Witness for C8 (amended): a championship-seasons table recording
team 2 as season-1 champion of championship 5. -/
theorem c8_witness :
    ("1 x Big Gold Belt Champion (Season 1)" ∈
      getTeamHighlights
        ⟨[], [], [], [], [⟨5, "Big Gold Belt"⟩], [⟨5, 1, some 2⟩], [], [], [], []⟩ 2 1)
    ∧ ∃ name, "1 x Big Gold Belt Champion (Season 1)"
        = "1 x " ++ name ++ " Champion (Season " ++ toString (1 : Nat) ++ ")" :=
  ⟨by decide,
   c8_champion_only_query
     ⟨[], [], [], [], [⟨5, "Big Gold Belt"⟩], [⟨5, 1, some 2⟩], [], [], [], []⟩ 2 1
     "1 x Big Gold Belt Champion (Season 1)" (by decide)⟩

/-! # C1: idempotence of the persist-all recompute

The crux is the lazily-registering label lookup `_label_id`: after one
full run every label the run touches resolves to a fixed id without
modifying `highlight_types` again, so a second run re-derives exactly
the same rows. -/

theorem lookupLabel_append (ts : List HType) (r : HType) (L : String) :
    lookupLabel (ts ++ [r]) L =
      match lookupLabel ts L with
      | some i => some i
      | none => if r.label == L then some r.id else none := by
  induction ts with
  | nil =>
    by_cases hr : r.label == L <;> simp [lookupLabel, List.find?, hr]
  | cons a ts ih =>
    by_cases ha : a.label == L <;>
      simp only [lookupLabel, List.cons_append, List.find?, ha] <;>
      simpa [lookupLabel] using ih

/-- Re-resolving a label directly after resolving it changes nothing
and returns the same id. -/
theorem labelIdS_self (ts : List HType) (L : String) :
    labelIdS (labelIdS ts L).1 L = labelIdS ts L := by
  cases h : lookupLabel ts L with
  | some i =>
    have h1 : labelIdS ts L = (ts, i) := by simp [labelIdS, h]
    rw [h1]
    exact h1
  | none =>
    by_cases hc : mkCode L ∈ codesOf ts
    · have h1 : labelIdS ts L = (ts, -1) := by simp [labelIdS, h, hc]
      rw [h1]
      simp [labelIdS, h, hc]
    · have hfind : lookupLabel (ts ++ [⟨newTypeId ts, mkCode L, L⟩]) L
          = some (newTypeId ts) := by
        rw [lookupLabel_append, h]
        simp
      have h1 : labelIdS ts L = (ts ++ [⟨newTypeId ts, mkCode L, L⟩], newTypeId ts) := by
        simp [labelIdS, h, hc, hfind]
      rw [h1]
      simp [labelIdS, hfind]

/-- A label already at a fixed point of `_label_id` stays at a fixed
point, with the same id, after any other `_label_id` call. -/
theorem labelIdS_preserved (ts : List HType) (L M : String) (i : Int)
    (h : labelIdS ts L = (ts, i)) :
    labelIdS (labelIdS ts M).1 L = ((labelIdS ts M).1, i) := by
  cases hM : lookupLabel ts M with
  | some j =>
    have h1 : (labelIdS ts M).1 = ts := by simp [labelIdS, hM]
    rw [h1]
    exact h
  | none =>
    by_cases hcM : mkCode M ∈ codesOf ts
    · have h1 : (labelIdS ts M).1 = ts := by simp [labelIdS, hM, hcM]
      rw [h1]
      exact h
    · have hfindM : lookupLabel (ts ++ [⟨newTypeId ts, mkCode M, M⟩]) M
          = some (newTypeId ts) := by
        rw [lookupLabel_append, hM]
        simp
      have h1 : (labelIdS ts M).1 = ts ++ [⟨newTypeId ts, mkCode M, M⟩] := by
        simp [labelIdS, hM, hcM, hfindM]
      rw [h1]
      cases hL : lookupLabel ts L with
      | some j =>
        have hij : j = i := by
          simp [labelIdS, hL, Prod.ext_iff] at h
          exact h
        have hfind : lookupLabel (ts ++ [⟨newTypeId ts, mkCode M, M⟩]) L = some j := by
          rw [lookupLabel_append, hL]
        simp [labelIdS, hfind, hij]
      | none =>
        by_cases hcL : mkCode L ∈ codesOf ts
        · have hi : (-1 : Int) = i := by
            simp [labelIdS, hL, hcL, Prod.ext_iff] at h
            exact h
          have hML : ((⟨newTypeId ts, mkCode M, M⟩ : HType).label == L) = false := by
            simp only [beq_eq_false_iff_ne, ne_eq]
            intro hML
            exact hcM (hML ▸ hcL)
          have hfind : lookupLabel (ts ++ [⟨newTypeId ts, mkCode M, M⟩]) L = none := by
            rw [lookupLabel_append, hL]
            simp [hML]
          have hcL2 : mkCode L ∈ codesOf (ts ++ [⟨newTypeId ts, mkCode M, M⟩]) := by
            unfold codesOf at hcL ⊢
            rw [List.map_append]
            exact List.mem_append.mpr (Or.inl hcL)
          simp [labelIdS, hfind, hcL2, hi]
        · exfalso
          have hfst : (labelIdS ts L).1 = ts ++ [⟨newTypeId ts, mkCode L, L⟩] := by
            cases hinner : lookupLabel (ts ++ [⟨newTypeId ts, mkCode L, L⟩]) L <;>
              simp [labelIdS, hL, hcL, hinner]
          rw [h] at hfst
          have := congrArg List.length hfst
          simp at this

/-- The interleaved persist loop equals its phase split: resolve all
labels (types evolve, ids come out), then apply the row inserts. -/
theorem persistWLoop_eq_phases (sq : List (Nat × String)) (ts : List HType)
    (wh : List WRow) (s : Nat) :
    persistWLoop ts wh s sq = (typesAfter ts sq, applyRows wh s (resolveIds ts sq)) := by
  induction sq generalizing ts wh with
  | nil => rfl
  | cons wl rest ih =>
    simp only [persistWLoop, typesAfter, resolveIds, applyRows]
    exact ih _ _

/-- Fixedness of a label survives a whole resolution run. -/
theorem labelIdS_preserved_run (sq : List (Nat × String)) (u : List HType)
    (L : String) (i : Int) (h : labelIdS u L = (u, i)) :
    labelIdS (typesAfter u sq) L = (typesAfter u sq, i) := by
  induction sq generalizing u with
  | nil => exact h
  | cons wl rest ih =>
    simp only [typesAfter]
    exact ih _ (labelIdS_preserved u L wl.2 i h)

/-- After one resolution run, every label the run touched is at a fixed
point of `_label_id`, and the resolved ids are read off the final
types table. -/
theorem run_establishes_fixed (sq : List (Nat × String)) (ts : List HType) :
    (∀ wl ∈ sq, labelIdS (typesAfter ts sq) wl.2
        = (typesAfter ts sq, (labelIdS (typesAfter ts sq) wl.2).2))
    ∧ resolveIds ts sq
        = sq.map fun wl => (wl.1, (labelIdS (typesAfter ts sq) wl.2).2) := by
  induction sq generalizing ts with
  | nil => exact ⟨by simp, rfl⟩
  | cons wl rest ih =>
    obtain ⟨ihF, ihR⟩ := ih (labelIdS ts wl.2).1
    have h0 : labelIdS (labelIdS ts wl.2).1 wl.2
        = ((labelIdS ts wl.2).1, (labelIdS ts wl.2).2) := by
      rw [labelIdS_self]
    have hT : labelIdS (typesAfter (labelIdS ts wl.2).1 rest) wl.2
        = (typesAfter (labelIdS ts wl.2).1 rest, (labelIdS ts wl.2).2) :=
      labelIdS_preserved_run rest _ wl.2 _ h0
    constructor
    · intro wl' hm
      rcases List.mem_cons.mp hm with hm | hm
      · subst hm
        simp only [typesAfter]
        rw [hT]
      · simpa only [typesAfter] using ihF wl' hm
    · simp only [resolveIds, typesAfter, List.map_cons]
      refine congrArg₂ List.cons ?_ ihR
      rw [hT]

/-- A resolution run over labels that are all at a fixed point changes
nothing and reads the fixed ids. -/
theorem fixed_replay (sq : List (Nat × String)) (u : List HType)
    (h : ∀ wl ∈ sq, labelIdS u wl.2 = (u, (labelIdS u wl.2).2)) :
    typesAfter u sq = u
      ∧ resolveIds u sq = sq.map fun wl => (wl.1, (labelIdS u wl.2).2) := by
  induction sq with
  | nil => exact ⟨rfl, rfl⟩
  | cons wl rest ih =>
    have hhead := h wl (List.mem_cons_self wl rest)
    have hfst : (labelIdS u wl.2).1 = u := by rw [hhead]
    obtain ⟨ih1, ih2⟩ := ih fun wl' hm => h wl' (List.mem_cons_of_mem wl hm)
    constructor
    · simp only [typesAfter, hfst]
      exact ih1
    · simp only [resolveIds, hfst, List.map_cons]
      exact congrArg _ ih2

theorem filter_filter_self {α : Type} (p : α → Bool) (l : List α) :
    (l.filter p).filter p = l.filter p := by
  induction l with
  | nil => rfl
  | cons a l ih => cases h : p a <;> simp [List.filter_cons, h, ih]

theorem insW_append (wh : List WRow) (r : WRow) :
    ∃ ex, insW wh r = wh ++ ex ∧ ∀ x ∈ ex, x = r := by
  by_cases hm : r ∈ wh
  · exact ⟨[], by simp [insW, hm], by simp⟩
  · exact ⟨[r], by simp [insW, hm], by simp⟩

theorem insW_nodup (wh : List WRow) (r : WRow) (h : wh.Nodup) : (insW wh r).Nodup := by
  by_cases hm : r ∈ wh
  · simpa [insW, hm] using h
  · simp only [insW, hm, if_neg]
    rw [if_neg (by simpa using hm)]
    exact List.Nodup.append h (List.nodup_singleton r) (by simpa using hm)

/-- Every row `applyRows` adds carries the recomputed season. -/
theorem applyRows_append (s : Nat) (prs : List (Nat × Int)) (wh : List WRow) :
    ∃ ex, applyRows wh s prs = wh ++ ex ∧ ∀ r ∈ ex, r.season = s := by
  induction prs generalizing wh with
  | nil => exact ⟨[], by simp [applyRows], by simp⟩
  | cons p rest ih =>
    by_cases hp : p.2 = -1
    · obtain ⟨ex, heq, hex⟩ := ih wh
      exact ⟨ex, by simpa [applyRows, hp] using heq, hex⟩
    · obtain ⟨ex0, heq0, hex0⟩ := insW_append wh ⟨p.1, p.2, s⟩
      obtain ⟨ex1, heq1, hex1⟩ := ih (insW wh ⟨p.1, p.2, s⟩)
      refine ⟨ex0 ++ ex1, ?_, ?_⟩
      · simp only [applyRows]
        rw [if_neg hp, heq1, heq0, List.append_assoc]
      · intro r hr
        rcases List.mem_append.mp hr with hr | hr
        · rw [hex0 r hr]
        · exact hex1 r hr

theorem applyRows_nodup (s : Nat) (prs : List (Nat × Int)) (wh : List WRow)
    (h : wh.Nodup) : (applyRows wh s prs).Nodup := by
  induction prs generalizing wh with
  | nil => exact h
  | cons p rest ih =>
    by_cases hp : p.2 = -1
    · simpa [applyRows, hp] using ih wh h
    · simp only [applyRows]
      rw [if_neg hp]
      exact ih _ (insW_nodup wh _ h)

/-- Deleting the season's slice after an insert run restores the
pre-insert deleted slice. -/
theorem delS_applyRows (wh : List WRow) (s : Nat) (prs : List (Nat × Int)) :
    ((applyRows (wh.filter fun r => !(r.season == s)) s prs).filter
        fun r => !(r.season == s))
      = wh.filter fun r => !(r.season == s) := by
  obtain ⟨ex, heq, hex⟩ := applyRows_append s prs (wh.filter fun r => !(r.season == s))
  rw [heq, List.filter_append, filter_filter_self]
  have hnil : (ex.filter fun r => !(r.season == s)) = [] := by
    rw [List.filter_eq_nil_iff]
    intro r hr
    simp [hex r hr]
  rw [hnil, List.append_nil]

theorem insT_append (th : List TRow) (r : TRow) :
    ∃ ex, insT th r = th ++ ex ∧ ∀ x ∈ ex, x = r := by
  by_cases hm : r ∈ th
  · exact ⟨[], by simp [insT, hm], by simp⟩
  · exact ⟨[r], by simp [insT, hm], by simp⟩

theorem insT_nodup (th : List TRow) (r : TRow) (h : th.Nodup) : (insT th r).Nodup := by
  by_cases hm : r ∈ th
  · simpa [insT, hm] using h
  · simp only [insT]
    rw [if_neg (by simpa using hm)]
    exact List.Nodup.append h (List.nodup_singleton r) (by simpa using hm)

/-- A left fold whose every step only appends rows satisfying `P`
appends only rows satisfying `P`. -/
theorem foldl_append_invariant {α β : Type} (P : α → Prop) (f : List α → β → List α)
    (hstep : ∀ acc b, ∃ ex, f acc b = acc ++ ex ∧ ∀ r ∈ ex, P r) :
    ∀ (l : List β) (acc : List α), ∃ ex, l.foldl f acc = acc ++ ex ∧ ∀ r ∈ ex, P r := by
  intro l
  induction l with
  | nil => exact fun acc => ⟨[], by simp, by simp⟩
  | cons b rest ih =>
    intro acc
    obtain ⟨ex0, heq0, hex0⟩ := hstep acc b
    obtain ⟨ex1, heq1, hex1⟩ := ih (f acc b)
    refine ⟨ex0 ++ ex1, ?_, ?_⟩
    · rw [List.foldl_cons, heq1, heq0, List.append_assoc]
    · intro r hr
      rcases List.mem_append.mp hr with hr | hr
      · exact hex0 r hr
      · exact hex1 r hr

theorem foldl_nodup_invariant {α β : Type} (f : List α → β → List α)
    (hstep : ∀ acc b, acc.Nodup → (f acc b).Nodup) :
    ∀ (l : List β) (acc : List α), acc.Nodup → (l.foldl f acc).Nodup := by
  intro l
  induction l with
  | nil => exact fun acc h => h
  | cons b rest ih => exact fun acc h => ih (f acc b) (hstep acc b h)

theorem champInsert_append (ps : List Part) (ttm : List (Nat × Nat)) (fm : MatchRow)
    (wsd : Nat) (h1 : Int) (s : Nat) (th : List TRow) :
    ∃ ex, champInsert ps ttm fm wsd h1 s th = th ++ ex
      ∧ ∀ r ∈ ex, r.season = s ∧ r.highlightId = h1 := by
  unfold champInsert
  cases sideToTeamId ttm (sideMembers ps fm.id wsd) with
  | none => exact ⟨[], by simp, by simp⟩
  | some tid =>
    obtain ⟨ex, heq, hex⟩ := insT_append th ⟨tid, h1, s⟩
    refine ⟨ex, heq, fun r hr => ?_⟩
    rw [hex r hr]
    exact ⟨rfl, rfl⟩

theorem runnerFold_append (ps : List Part) (ttm : List (Nat × Nat)) (fm : MatchRow)
    (wsd : Nat) (h2 : Int) (s : Nat) (th : List TRow) :
    ∃ ex, runnerFold ps ttm fm wsd h2 s th = th ++ ex
      ∧ ∀ r ∈ ex, r.season = s ∧ r.highlightId = h2 := by
  unfold runnerFold
  refine foldl_append_invariant _ _ ?_ _ th
  intro acc sd
  by_cases hsd : sd = wsd
  · exact ⟨[], by simp [hsd], by simp⟩
  · cases hres : sideToTeamId ttm (sideMembers ps fm.id sd) with
    | none => exact ⟨[], by simp [hsd, hres], by simp⟩
    | some tid =>
      obtain ⟨ex, heq, hex⟩ := insT_append acc ⟨tid, h2, s⟩
      refine ⟨ex, by simp [hsd, hres, heq], fun r hr => ?_⟩
      rw [hex r hr]
      exact ⟨rfl, rfl⟩

theorem teamFinalsStep_snd_append (ps : List Part) (ttm : List (Nat × Nat))
    (fin : Option MatchRow) (h1 h2 : Int) (s : Nat) (th : List TRow) :
    ∃ ex, (teamFinalsStep ps ttm fin h1 h2 s th).2 = th ++ ex
      ∧ ∀ r ∈ ex, r.season = s ∧ (r.highlightId = h1 ∨ r.highlightId = h2) := by
  cases fin with
  | none => exact ⟨[], by simp [teamFinalsStep], by simp⟩
  | some fm =>
    cases hws : fm.winnerSide with
    | none => exact ⟨[], by simp [teamFinalsStep, hws], by simp⟩
    | some wsd =>
      obtain ⟨exA, heqA, hexA⟩ := champInsert_append ps ttm fm wsd h1 s th
      obtain ⟨exB, heqB, hexB⟩ :=
        runnerFold_append ps ttm fm wsd h2 s (champInsert ps ttm fm wsd h1 s th)
      refine ⟨exA ++ exB, ?_, ?_⟩
      · simp only [teamFinalsStep, hws]
        rw [heqB, heqA, List.append_assoc]
      · intro r hr
        rcases List.mem_append.mp hr with hr | hr
        · exact ⟨(hexA r hr).1, Or.inl (hexA r hr).2⟩
        · exact ⟨(hexB r hr).1, Or.inr (hexB r hr).2⟩

theorem sfSideFold_append (ps : List Part) (ttm : List (Nat × Nat)) (sf : MatchRow)
    (wsd : Nat) (fti : List Nat) (h3 : Int) (s : Nat) (th : List TRow) :
    ∃ ex, sfSideFold ps ttm sf wsd fti h3 s th = th ++ ex
      ∧ ∀ r ∈ ex, r.season = s ∧ r.highlightId = h3 := by
  unfold sfSideFold
  refine foldl_append_invariant _ _ ?_ _ th
  intro acc sd
  by_cases hsd : sd = wsd
  · exact ⟨[], by simp [hsd], by simp⟩
  · cases hres : sideToTeamId ttm (sideMembers ps sf.id sd) with
    | none => exact ⟨[], by simp [hsd, hres], by simp⟩
    | some tid =>
      by_cases hmem : tid ∈ fti
      · exact ⟨[], by simp [hsd, hres, hmem], by simp⟩
      · obtain ⟨ex, heq, hex⟩ := insT_append acc ⟨tid, h3, s⟩
        refine ⟨ex, by simp [hsd, hres, hmem, heq], fun r hr => ?_⟩
        rw [hex r hr]
        exact ⟨rfl, rfl⟩

theorem teamSfStep_append (ms : List MatchRow) (ps : List Part) (ttm : List (Nat × Nat))
    (fti : List Nat) (h3 : Int) (s : Nat) (th : List TRow) :
    ∃ ex, teamSfStep ms ps ttm fti h3 s th = th ++ ex
      ∧ ∀ r ∈ ex, r.season = s ∧ r.highlightId = h3 := by
  unfold teamSfStep
  refine foldl_append_invariant _ _ ?_ _ th
  intro acc sf
  cases hws : sf.winnerSide with
  | none => exact ⟨[], by simp [hws], by simp⟩
  | some wsd =>
    obtain ⟨ex, heq, hex⟩ := sfSideFold_append ps ttm sf wsd fti h3 s acc
    exact ⟨ex, by simp [hws, heq], hex⟩

theorem champInsert_nodup (ps : List Part) (ttm : List (Nat × Nat)) (fm : MatchRow)
    (wsd : Nat) (h1 : Int) (s : Nat) (th : List TRow) (h : th.Nodup) :
    (champInsert ps ttm fm wsd h1 s th).Nodup := by
  unfold champInsert
  cases sideToTeamId ttm (sideMembers ps fm.id wsd) with
  | none => exact h
  | some tid => exact insT_nodup th _ h

theorem runnerFold_nodup (ps : List Part) (ttm : List (Nat × Nat)) (fm : MatchRow)
    (wsd : Nat) (h2 : Int) (s : Nat) (th : List TRow) (h : th.Nodup) :
    (runnerFold ps ttm fm wsd h2 s th).Nodup := by
  unfold runnerFold
  refine foldl_nodup_invariant _ ?_ _ th h
  intro acc sd hacc
  by_cases hsd : sd = wsd
  · simpa [hsd] using hacc
  · cases hres : sideToTeamId ttm (sideMembers ps fm.id sd) with
    | none => simpa [hsd, hres] using hacc
    | some tid => simpa [hsd, hres] using insT_nodup acc _ hacc

theorem teamFinalsStep_snd_nodup (ps : List Part) (ttm : List (Nat × Nat))
    (fin : Option MatchRow) (h1 h2 : Int) (s : Nat) (th : List TRow) (h : th.Nodup) :
    ((teamFinalsStep ps ttm fin h1 h2 s th).2).Nodup := by
  cases fin with
  | none => exact h
  | some fm =>
    cases hws : fm.winnerSide with
    | none => simpa [teamFinalsStep, hws] using h
    | some wsd =>
      simp only [teamFinalsStep, hws]
      exact runnerFold_nodup ps ttm fm wsd h2 s _ (champInsert_nodup ps ttm fm wsd h1 s th h)

theorem sfSideFold_nodup (ps : List Part) (ttm : List (Nat × Nat)) (sf : MatchRow)
    (wsd : Nat) (fti : List Nat) (h3 : Int) (s : Nat) (th : List TRow) (h : th.Nodup) :
    (sfSideFold ps ttm sf wsd fti h3 s th).Nodup := by
  unfold sfSideFold
  refine foldl_nodup_invariant _ ?_ _ th h
  intro acc sd hacc
  by_cases hsd : sd = wsd
  · simpa [hsd] using hacc
  · cases hres : sideToTeamId ttm (sideMembers ps sf.id sd) with
    | none => simpa [hsd, hres] using hacc
    | some tid =>
      by_cases hmem : tid ∈ fti
      · simpa [hsd, hres, hmem] using hacc
      · simpa [hsd, hres, hmem] using insT_nodup acc _ hacc

theorem teamSfStep_nodup (ms : List MatchRow) (ps : List Part) (ttm : List (Nat × Nat))
    (fti : List Nat) (h3 : Int) (s : Nat) (th : List TRow) (h : th.Nodup) :
    (teamSfStep ms ps ttm fti h3 s th).Nodup := by
  unfold teamSfStep
  refine foldl_nodup_invariant _ ?_ _ th h
  intro acc sf hacc
  cases hws : sf.winnerSide with
  | none => simpa [hws] using hacc
  | some wsd => simpa [hws] using sfSideFold_nodup ps ttm sf wsd fti h3 s acc hacc

/-- `recompute_team_tag_highlights` keeps `team_highlights` free of
duplicate rows. -/
theorem recomputeTeamTag_snd_nodup (ms : List MatchRow) (ps : List Part)
    (ttm : List (Nat × Nat)) (ts : List HType) (th : List TRow) (s : Nat)
    (h : th.Nodup) : ((recomputeTeamTag ms ps ttm ts th s).2).Nodup :=
  teamSfStep_nodup ms ps ttm _ _ s _
    (teamFinalsStep_snd_nodup ps ttm _ _ _ s _ (List.Nodup.filter _ h))

/-- Re-running `recompute_team_tag_highlights` on its own output (same
match data) resolves the same three label ids, deletes exactly the rows
it inserted, and re-inserts them: both the types table and the team
rows are unchanged. -/
theorem recomputeTeamTag_idem (ms : List MatchRow) (ps : List Part)
    (ttm : List (Nat × Nat)) (ts : List HType) (th : List TRow) (s : Nat) :
    recomputeTeamTag ms ps ttm (recomputeTeamTag ms ps ttm ts th s).1
        (recomputeTeamTag ms ps ttm ts th s).2 s
      = recomputeTeamTag ms ps ttm ts th s := by
  set r1 := labelIdS ts "Tag Team World Champion" with hr1
  set r2 := labelIdS r1.1 "Tag Team World Championship Runner-up" with hr2
  set r3 := labelIdS r2.1 "Tag Team World Championship Semi-Finalist" with hr3
  set th0 := th.filter (fun r =>
    !(r.season == s &&
      (r.highlightId == r1.2 || r.highlightId == r2.2 || r.highlightId == r3.2))) with hth0
  set fstep := teamFinalsStep ps ttm (finalMatch ms s T_TAG_WORLD) r1.2 r2.2 s th0 with hfstep
  set th1 := teamSfStep ms ps ttm fstep.1 r3.2 s fstep.2 with hth1
  have hrun1 : recomputeTeamTag ms ps ttm ts th s = (r3.1, th1) := rfl
  rw [hrun1]
  have f1a : labelIdS r1.1 "Tag Team World Champion" = (r1.1, r1.2) := by
    have h := labelIdS_self ts "Tag Team World Champion"
    rw [← hr1] at h
    rw [h]
  have f1b : labelIdS r2.1 "Tag Team World Champion" = (r2.1, r1.2) := by
    have h := labelIdS_preserved r1.1 "Tag Team World Champion"
      "Tag Team World Championship Runner-up" r1.2 f1a
    rw [← hr2] at h
    exact h
  have f1c : labelIdS r3.1 "Tag Team World Champion" = (r3.1, r1.2) := by
    have h := labelIdS_preserved r2.1 "Tag Team World Champion"
      "Tag Team World Championship Semi-Finalist" r1.2 f1b
    rw [← hr3] at h
    exact h
  have f2a : labelIdS r2.1 "Tag Team World Championship Runner-up" = (r2.1, r2.2) := by
    have h := labelIdS_self r1.1 "Tag Team World Championship Runner-up"
    rw [← hr2] at h
    rw [h]
  have f2b : labelIdS r3.1 "Tag Team World Championship Runner-up" = (r3.1, r2.2) := by
    have h := labelIdS_preserved r2.1 "Tag Team World Championship Runner-up"
      "Tag Team World Championship Semi-Finalist" r2.2 f2a
    rw [← hr3] at h
    exact h
  have f3a : labelIdS r3.1 "Tag Team World Championship Semi-Finalist" = (r3.1, r3.2) := by
    have h := labelIdS_self r2.1 "Tag Team World Championship Semi-Finalist"
    rw [← hr3] at h
    rw [h]
  have hdel : (th1.filter fun r =>
      !(r.season == s &&
        (r.highlightId == r1.2 || r.highlightId == r2.2 || r.highlightId == r3.2))) = th0 := by
    obtain ⟨exF, heqF, hexF⟩ :=
      teamFinalsStep_snd_append ps ttm (finalMatch ms s T_TAG_WORLD) r1.2 r2.2 s th0
    obtain ⟨exS, heqS, hexS⟩ := teamSfStep_append ms ps ttm fstep.1 r3.2 s fstep.2
    rw [← hfstep] at heqF
    rw [hth1, heqS, heqF, List.append_assoc, List.filter_append]
    have hnil : ((exF ++ exS).filter fun r =>
        !(r.season == s &&
          (r.highlightId == r1.2 || r.highlightId == r2.2 || r.highlightId == r3.2))) = [] := by
      rw [List.filter_eq_nil_iff]
      intro r hr
      rcases List.mem_append.mp hr with hr | hr
      · obtain ⟨hseason, hhid⟩ := hexF r hr
        rcases hhid with hhid | hhid <;> simp [hseason, hhid]
      · obtain ⟨hseason, hhid⟩ := hexS r hr
        simp [hseason, hhid]
    rw [hnil, List.append_nil, hth0, filter_filter_self]
  have hrun2 : recomputeTeamTag ms ps ttm r3.1 th1 s = (r3.1, th1) := by
    unfold recomputeTeamTag
    simp only [f1c, f2b, f3a, hdel]
  exact hrun2

theorem persistAll_eq (st : St) (s : Nat) : persistAll st s = persistAllCore st s := rfl

theorem persistAllCore_ms (st : St) (s : Nat) :
    (persistAllCore st s).matchesT = st.matchesT := rfl

theorem persistAllCore_ps (st : St) (s : Nat) :
    (persistAllCore st s).participants = st.participants := rfl

theorem persistAllCore_ttm (st : St) (s : Nat) :
    (persistAllCore st s).tagTeamMembers = st.tagTeamMembers := rfl

theorem persistAllCore_wh (st : St) (s : Nat) :
    (persistAllCore st s).wrestlerHighlights
      = applyRows (st.wrestlerHighlights.filter fun r => !(r.season == s)) s
          (resolveIds st.highlightTypes
            (labelSeq (dryRunAllPairs st.matchesT st.participants s))) := by
  have h0 : (persistAllCore st s).wrestlerHighlights
      = (persistWLoop st.highlightTypes
          (st.wrestlerHighlights.filter fun r => !(r.season == s)) s
          (labelSeq (dryRunAllPairs st.matchesT st.participants s))).2 := rfl
  rw [h0, persistWLoop_eq_phases]

theorem persistAllCore_types (st : St) (s : Nat) :
    (persistAllCore st s).highlightTypes
      = (recomputeTeamTag st.matchesT st.participants st.tagTeamMembers
          (typesAfter st.highlightTypes
            (labelSeq (dryRunAllPairs st.matchesT st.participants s)))
          st.teamHighlights s).1 := by
  have h0 : (persistAllCore st s).highlightTypes
      = (recomputeTeamTag st.matchesT st.participants st.tagTeamMembers
          (persistWLoop st.highlightTypes
            (st.wrestlerHighlights.filter fun r => !(r.season == s)) s
            (labelSeq (dryRunAllPairs st.matchesT st.participants s))).1
          st.teamHighlights s).1 := rfl
  rw [h0, persistWLoop_eq_phases]

theorem persistAllCore_th (st : St) (s : Nat) :
    (persistAllCore st s).teamHighlights
      = (recomputeTeamTag st.matchesT st.participants st.tagTeamMembers
          (typesAfter st.highlightTypes
            (labelSeq (dryRunAllPairs st.matchesT st.participants s)))
          st.teamHighlights s).2 := by
  have h0 : (persistAllCore st s).teamHighlights
      = (recomputeTeamTag st.matchesT st.participants st.tagTeamMembers
          (persistWLoop st.highlightTypes
            (st.wrestlerHighlights.filter fun r => !(r.season == s)) s
            (labelSeq (dryRunAllPairs st.matchesT st.participants s))).1
          st.teamHighlights s).2 := rfl
  rw [h0, persistWLoop_eq_phases]

/-- Fixed labels stay fixed through `recompute_team_tag_highlights`'s
three `_label_id` calls. -/
theorem recomputeTeamTag_fst_preserves (ms : List MatchRow) (ps : List Part)
    (ttm : List (Nat × Nat)) (u : List HType) (th : List TRow) (s : Nat)
    (L : String) (i : Int) (h : labelIdS u L = (u, i)) :
    labelIdS (recomputeTeamTag ms ps ttm u th s).1 L
      = ((recomputeTeamTag ms ps ttm u th s).1, i) := by
  have h0 : (recomputeTeamTag ms ps ttm u th s).1
      = (labelIdS (labelIdS (labelIdS u "Tag Team World Champion").1
          "Tag Team World Championship Runner-up").1
          "Tag Team World Championship Semi-Finalist").1 := rfl
  rw [h0]
  exact labelIdS_preserved _ L _ i
    (labelIdS_preserved _ L _ i (labelIdS_preserved _ L _ i h))

/-- Re-running the persist-all recompute body on its own output leaves
both achievement tables exactly as they were. -/
theorem persistAllCore_idem (st : St) (s : Nat) :
    (persistAllCore (persistAllCore st s) s).wrestlerHighlights
        = (persistAllCore st s).wrestlerHighlights
    ∧ (persistAllCore (persistAllCore st s) s).teamHighlights
        = (persistAllCore st s).teamHighlights := by
  have hwh1 := persistAllCore_wh st s
  have hty := persistAllCore_types st s
  have hth := persistAllCore_th st s
  obtain ⟨hfix1, hres1⟩ :=
    run_establishes_fixed (labelSeq (dryRunAllPairs st.matchesT st.participants s))
      st.highlightTypes
  have hfixTY : ∀ wl ∈ labelSeq (dryRunAllPairs st.matchesT st.participants s),
      labelIdS (persistAllCore st s).highlightTypes wl.2
        = ((persistAllCore st s).highlightTypes,
           (labelIdS (typesAfter st.highlightTypes
             (labelSeq (dryRunAllPairs st.matchesT st.participants s))) wl.2).2) := by
    intro wl hm
    rw [hty]
    exact recomputeTeamTag_fst_preserves _ _ _ _ _ _ _ _ (hfix1 wl hm)
  have hfixTY2 : ∀ wl ∈ labelSeq (dryRunAllPairs st.matchesT st.participants s),
      labelIdS (persistAllCore st s).highlightTypes wl.2
        = ((persistAllCore st s).highlightTypes,
           (labelIdS (persistAllCore st s).highlightTypes wl.2).2) := by
    intro wl hm
    have e := hfixTY wl hm
    have e2 : (labelIdS (persistAllCore st s).highlightTypes wl.2).2
        = (labelIdS (typesAfter st.highlightTypes
            (labelSeq (dryRunAllPairs st.matchesT st.participants s))) wl.2).2 := by
      rw [e]
    rw [e2]
    exact e
  obtain ⟨hTYstable, hTYres⟩ :=
    fixed_replay (labelSeq (dryRunAllPairs st.matchesT st.participants s))
      (persistAllCore st s).highlightTypes hfixTY2
  have hresEq : resolveIds (persistAllCore st s).highlightTypes
        (labelSeq (dryRunAllPairs st.matchesT st.participants s))
      = resolveIds st.highlightTypes
        (labelSeq (dryRunAllPairs st.matchesT st.participants s)) := by
    rw [hTYres, hres1]
    refine List.map_congr_left ?_
    intro wl hm
    have e2 : (labelIdS (persistAllCore st s).highlightTypes wl.2).2
        = (labelIdS (typesAfter st.highlightTypes
            (labelSeq (dryRunAllPairs st.matchesT st.participants s))) wl.2).2 := by
      rw [hfixTY wl hm]
    rw [e2]
  constructor
  · have hwh2 := persistAllCore_wh (persistAllCore st s) s
    rw [persistAllCore_ms, persistAllCore_ps, hresEq] at hwh2
    rw [hwh2, hwh1, delS_applyRows, ← hwh1]
  · have hth2 := persistAllCore_th (persistAllCore st s) s
    rw [persistAllCore_ms, persistAllCore_ps, persistAllCore_ttm, hTYstable, hty, hth]
      at hth2
    rw [hth2, hth]
    exact congrArg Prod.snd (recomputeTeamTag_idem st.matchesT st.participants
      st.tagTeamMembers
      (typesAfter st.highlightTypes
        (labelSeq (dryRunAllPairs st.matchesT st.participants s)))
      st.teamHighlights s)

/-- C1: running the persist-all recompute for a season twice in
succession, with no change to matches, participants, or teams in
between (the collaborator tables are inputs the endpoint never
writes), leaves exactly the same stored achievement rows in
`wrestler_highlights` and `team_highlights`; and, given the
primary-key invariant on the starting store, the stored rows have at
most one row per (competitor, highlight, season). -/
theorem c1_persist_all_idempotent (st : St) (s : Nat)
    (hw : st.wrestlerHighlights.Nodup) (ht : st.teamHighlights.Nodup) :
    ((persistAll (persistAll st s) s).wrestlerHighlights
        = (persistAll st s).wrestlerHighlights
      ∧ (persistAll (persistAll st s) s).teamHighlights
        = (persistAll st s).teamHighlights)
    ∧ (persistAll st s).wrestlerHighlights.Nodup
    ∧ (persistAll st s).teamHighlights.Nodup := by
  simp only [persistAll_eq]
  refine ⟨persistAllCore_idem st s, ?_, ?_⟩
  · rw [persistAllCore_wh st s]
    exact applyRows_nodup _ _ _ (List.Nodup.filter _ hw)
  · rw [persistAllCore_th st s]
    exact recomputeTeamTag_snd_nodup _ _ _ _ _ _ ht

/-- Witness for C1: the Tag Team World season-1 database used in the
C8 counterexample, starting from an empty store. -/
theorem c1_witness :
    (([] : List WRow).Nodup ∧ ([] : List TRow).Nodup)
    ∧ (((persistAll (persistAll
          ⟨[⟨10, 1, "Tag Team World Championship", "Final", some 1, some 3, some 2⟩,
            ⟨9, 1, "Tag Team World Championship", "Semi Final", some 1, some 2, some 1⟩],
           [⟨10, 1, 1⟩, ⟨10, 1, 2⟩, ⟨10, 2, 3⟩, ⟨10, 2, 4⟩,
            ⟨9, 1, 3⟩, ⟨9, 1, 4⟩, ⟨9, 2, 5⟩, ⟨9, 2, 6⟩],
           [], [(1, 1), (1, 2), (2, 3), (2, 4), (3, 5), (3, 6)],
           [], [], [], [], [], []⟩ 1) 1).wrestlerHighlights
        = (persistAll
          ⟨[⟨10, 1, "Tag Team World Championship", "Final", some 1, some 3, some 2⟩,
            ⟨9, 1, "Tag Team World Championship", "Semi Final", some 1, some 2, some 1⟩],
           [⟨10, 1, 1⟩, ⟨10, 1, 2⟩, ⟨10, 2, 3⟩, ⟨10, 2, 4⟩,
            ⟨9, 1, 3⟩, ⟨9, 1, 4⟩, ⟨9, 2, 5⟩, ⟨9, 2, 6⟩],
           [], [(1, 1), (1, 2), (2, 3), (2, 4), (3, 5), (3, 6)],
           [], [], [], [], [], []⟩ 1).wrestlerHighlights
      ∧ (persistAll (persistAll
          ⟨[⟨10, 1, "Tag Team World Championship", "Final", some 1, some 3, some 2⟩,
            ⟨9, 1, "Tag Team World Championship", "Semi Final", some 1, some 2, some 1⟩],
           [⟨10, 1, 1⟩, ⟨10, 1, 2⟩, ⟨10, 2, 3⟩, ⟨10, 2, 4⟩,
            ⟨9, 1, 3⟩, ⟨9, 1, 4⟩, ⟨9, 2, 5⟩, ⟨9, 2, 6⟩],
           [], [(1, 1), (1, 2), (2, 3), (2, 4), (3, 5), (3, 6)],
           [], [], [], [], [], []⟩ 1) 1).teamHighlights
        = (persistAll
          ⟨[⟨10, 1, "Tag Team World Championship", "Final", some 1, some 3, some 2⟩,
            ⟨9, 1, "Tag Team World Championship", "Semi Final", some 1, some 2, some 1⟩],
           [⟨10, 1, 1⟩, ⟨10, 1, 2⟩, ⟨10, 2, 3⟩, ⟨10, 2, 4⟩,
            ⟨9, 1, 3⟩, ⟨9, 1, 4⟩, ⟨9, 2, 5⟩, ⟨9, 2, 6⟩],
           [], [(1, 1), (1, 2), (2, 3), (2, 4), (3, 5), (3, 6)],
           [], [], [], [], [], []⟩ 1).teamHighlights)
      ∧ (persistAll
          ⟨[⟨10, 1, "Tag Team World Championship", "Final", some 1, some 3, some 2⟩,
            ⟨9, 1, "Tag Team World Championship", "Semi Final", some 1, some 2, some 1⟩],
           [⟨10, 1, 1⟩, ⟨10, 1, 2⟩, ⟨10, 2, 3⟩, ⟨10, 2, 4⟩,
            ⟨9, 1, 3⟩, ⟨9, 1, 4⟩, ⟨9, 2, 5⟩, ⟨9, 2, 6⟩],
           [], [(1, 1), (1, 2), (2, 3), (2, 4), (3, 5), (3, 6)],
           [], [], [], [], [], []⟩ 1).wrestlerHighlights.Nodup
      ∧ (persistAll
          ⟨[⟨10, 1, "Tag Team World Championship", "Final", some 1, some 3, some 2⟩,
            ⟨9, 1, "Tag Team World Championship", "Semi Final", some 1, some 2, some 1⟩],
           [⟨10, 1, 1⟩, ⟨10, 1, 2⟩, ⟨10, 2, 3⟩, ⟨10, 2, 4⟩,
            ⟨9, 1, 3⟩, ⟨9, 1, 4⟩, ⟨9, 2, 5⟩, ⟨9, 2, 6⟩],
           [], [(1, 1), (1, 2), (2, 3), (2, 4), (3, 5), (3, 6)],
           [], [], [], [], [], []⟩ 1).teamHighlights.Nodup) :=
  ⟨⟨by decide, by decide⟩,
   c1_persist_all_idempotent
     ⟨[⟨10, 1, "Tag Team World Championship", "Final", some 1, some 3, some 2⟩,
       ⟨9, 1, "Tag Team World Championship", "Semi Final", some 1, some 2, some 1⟩],
      [⟨10, 1, 1⟩, ⟨10, 1, 2⟩, ⟨10, 2, 3⟩, ⟨10, 2, 4⟩,
       ⟨9, 1, 3⟩, ⟨9, 1, 4⟩, ⟨9, 2, 5⟩, ⟨9, 2, 6⟩],
      [], [(1, 1), (1, 2), (2, 3), (2, 4), (3, 5), (3, 6)],
      [], [], [], [], [], []⟩ 1 (by decide) (by decide)⟩

end Wut
